import Mathlib

/-!
Verification of the metricas_lattes citation segmentation engine.

Shallow embedding of the Python sources under `src/metricas_lattes/`:
strings are modelled as `List Char` (Python str = sequence of Unicode code
points), machine hashing as `Nat` arithmetic mod 2^32, and each regular
expression of the source as a dedicated scanning function implementing that
pattern's matching semantics.
-/

set_option maxRecDepth 1000000

namespace Metricas

/-- Python strings are sequences of Unicode code points. -/
abbrev Str := List Char

/-- Code points matched by Python's `\s` (and `str.strip`) over the inputs
this corpus can contain. -/
def wsCodes : List Nat :=
  [9, 10, 11, 12, 13, 28, 29, 30, 31, 32, 133, 160, 5760,
   8192, 8193, 8194, 8195, 8196, 8197, 8198, 8199, 8200, 8201, 8202,
   8232, 8233, 8239, 8287, 12288]

def pyIsSpace (c : Char) : Bool := wsCodes.contains c.toNat

def isUpperAZ (c : Char) : Bool := 65 ≤ c.toNat && c.toNat ≤ 90

/-- The character class `[A-ZÀ-Ú]` used by the source regexes. -/
def isUpperAcc (c : Char) : Bool := isUpperAZ c || (192 ≤ c.toNat && c.toNat ≤ 218)

/-- Python `\w` (word character) over the Latin ranges this corpus uses:
ASCII alphanumerics, underscore, and the Latin letter blocks. -/
def pyIsWord (c : Char) : Bool :=
  c.isAlpha || c.isDigit || c = '_' ||
  (c.toNat ∈ [170, 181, 186]) ||
  (192 ≤ c.toNat && c.toNat ≤ 591 && c.toNat ≠ 215 && c.toNat ≠ 247)

def isDigitC (c : Char) : Bool := c.isDigit

/-- Does `s` start with `pre`? -/
def startsL : Str → Str → Bool
  | [], _ => true
  | _ :: _, [] => false
  | p :: ps, c :: cs => p = c && startsL ps cs

/-- Python `needle in hay` (substring containment). -/
def subOccurs (needle : Str) : Str → Bool
  | [] => startsL needle []
  | c :: rest => startsL needle (c :: rest) || subOccurs needle rest

def pyLStrip (s : Str) : Str := s.dropWhile pyIsSpace
def pyRStrip (s : Str) : Str := (s.reverse.dropWhile pyIsSpace).reverse
def pyStrip (s : Str) : Str := pyRStrip (pyLStrip s)

/-- Python `str.strip(chars)` from the left. -/
def stripCharsL (cs : Str) (s : Str) : Str := s.dropWhile (fun c => cs.contains c)
def stripCharsR (cs : Str) (s : Str) : Str := (s.reverse.dropWhile (fun c => cs.contains c)).reverse
def stripChars (cs : Str) (s : Str) : Str := stripCharsR cs (stripCharsL cs s)

/-- `re.sub(r'\s+', ' ', s)`: collapse every whitespace run to one space.
The flag records whether the previous character was inside a run. -/
def collapseWsAux : Bool → Str → Str
  | _, [] => []
  | prevWs, c :: rest =>
    if pyIsSpace c then
      if prevWs then collapseWsAux true rest
      else ' ' :: collapseWsAux true rest
    else c :: collapseWsAux false rest

def collapseWs (s : Str) : Str := collapseWsAux false s

/-- `clean_text` shared by ArtigoParser / CapituloParser / TextoJornalParser:
replace NBSP by space, collapse whitespace, strip. -/
def clean_text (s : Str) : Str :=
  pyStrip (collapseWs (s.map (fun c => if c.toNat = 160 then ' ' else c)))

/-- Python `hay.split(sep)` for a non-empty separator. Structural recursion
on a fuel bound (each step consumes at least one character, so a fuel of
`hay.length + 1` always suffices and the fuel-exhausted case is dead). -/
def splitSubGo (sep : Str) : Nat → Str → Str → List Str
  | 0, s, acc => [acc.reverse ++ s]
  | _ + 1, [], acc => [acc.reverse]
  | f + 1, c :: rest, acc =>
    if startsL sep (c :: rest) then
      acc.reverse :: splitSubGo sep f ((c :: rest).drop sep.length) []
    else
      splitSubGo sep f rest (c :: acc)

def splitOnSub (sep hay : Str) : List Str :=
  if sep = [] then [hay] else splitSubGo sep (hay.length + 1) hay []

/-- Python `hay.split(sep, 1)`: text before the first occurrence, and the
text after it when the separator occurs. -/
def splitOnceGo (sep : Str) : Str → Str → Str × Option Str
  | [], acc => (acc.reverse, none)
  | c :: rest, acc =>
    if startsL sep (c :: rest) then (acc.reverse, some ((c :: rest).drop sep.length))
    else splitOnceGo sep rest (c :: acc)

def splitOnceSub (sep hay : Str) : Str × Option Str := splitOnceGo sep hay []

/-- Python `s.split(ch)` on a single-character separator. -/
def splitChar (ch : Char) : Str → List Str
  | [] => [[]]
  | c :: rest =>
    if c = ch then [] :: splitChar ch rest
    else
      match splitChar ch rest with
      | t :: ts => (c :: t) :: ts
      | [] => [[c]]

/-- Python `s.replace(sep, repl)` (non-overlapping, left to right). -/
def replaceSub (sep repl s : Str) : Str := List.intercalate repl (splitOnSub sep s)

/-- Python `s.count(sub)`: non-overlapping occurrence count (fuel-based). -/
def countSubGo (needle : Str) : Nat → Str → Nat
  | 0, _ => 0
  | _ + 1, [] => 0
  | f + 1, c :: rest =>
    if startsL needle (c :: rest) then
      1 + countSubGo needle f ((c :: rest).drop needle.length)
    else countSubGo needle f rest

def countSub (needle hay : Str) : Nat :=
  if needle = [] then hay.length + 1 else countSubGo needle (hay.length + 1) hay

/-- Generic engine for `re.sub`: `matchAt prev s` decides whether a match
starts at the head of `s` (with `prev` the character just before `s` in the
original text, for boundary conditions) and returns the replacement text,
the number of consumed characters minus one, and the new previous
character. Scanning continues after the consumed text, as `re.sub` does. -/
def subAllGo (matchAt : Option Char → Str → Option (Str × Nat × Option Char)) :
    Nat → Option Char → Str → Str
  | 0, _, s => s
  | _ + 1, _, [] => []
  | f + 1, prev, c :: rest =>
    match matchAt prev (c :: rest) with
    | some (repl, n, newPrev) => repl ++ subAllGo matchAt f newPrev (rest.drop n)
    | none => c :: subAllGo matchAt f (some c) rest

def subAll (matchAt : Option Char → Str → Option (Str × Nat × Option Char))
    (prev : Option Char) (s : Str) : Str :=
  subAllGo matchAt (s.length + 1) prev s

/-- Generic engine for `re.search`: try a match at every position, left to
right, tracking the previous character. -/
def scanFind {α : Type} (tryAt : Option Char → Str → Option α) :
    Option Char → Str → Option α
  | prev, [] => tryAt prev []
  | prev, c :: rest =>
    match tryAt prev (c :: rest) with
    | some x => some x
    | none => scanFind tryAt (some c) rest

/-! ### UTF-8 encoding and SHA-1 (embedding of `raw_text.encode('utf-8')`
and `hashlib.sha1(...).hexdigest()`) -/

/-- UTF-8 encoding of one code point. -/
def utf8EncodeChar (c : Char) : List Nat :=
  let n := c.toNat
  if n < 128 then [n]
  else if n < 2048 then [192 + n / 64, 128 + n % 64]
  else if n < 65536 then [224 + n / 4096, 128 + (n / 64) % 64, 128 + n % 64]
  else [240 + n / 262144, 128 + (n / 4096) % 64, 128 + (n / 64) % 64, 128 + n % 64]

def utf8Encode (s : Str) : List Nat := (s.map utf8EncodeChar).flatten

def w32 (n : Nat) : Nat := n % 4294967296

def rotl (b n : Nat) : Nat := w32 ((n <<< b) + (n >>> (32 - b)))

/-- Big-endian 32-bit words from a byte list (length a multiple of 4). -/
def bytesToWords : List Nat → List Nat
  | b0 :: b1 :: b2 :: b3 :: rest =>
    (((b0 * 256 + b1) * 256 + b2) * 256 + b3) :: bytesToWords rest
  | _ => []

/-- SHA-1 message padding: append 0x80, zeros to 56 mod 64, then the
64-bit big-endian bit length. -/
def sha1Pad (msg : List Nat) : List Nat :=
  let len := msg.length
  let zeros := (119 - (len % 64)) % 64
  let ml := 8 * len
  msg ++ [128] ++ List.replicate zeros 0 ++
    [w32 (ml / 72057594037927936) % 256, (ml / 281474976710656) % 256,
     (ml / 1099511627776) % 256, (ml / 4294967296) % 256,
     (ml / 16777216) % 256, (ml / 65536) % 256, (ml / 256) % 256, ml % 256]

/-- Extend the 16 schedule words to 80; `rev` holds the words produced so
far, most recent first. -/
def sha1Extend : Nat → List Nat → List Nat
  | 0, rev => rev
  | n + 1, rev =>
    let x := rotl 1 ((((rev.getD 2 0).xor (rev.getD 7 0)).xor (rev.getD 13 0)).xor (rev.getD 15 0))
    sha1Extend n (x :: rev)

def sha1F (i b c d : Nat) : Nat :=
  if i < 20 then (b.land c).lor ((b.xor 4294967295).land d)
  else if i < 40 then (b.xor c).xor d
  else if i < 60 then ((b.land c).lor (b.land d)).lor (c.land d)
  else (b.xor c).xor d

def sha1K (i : Nat) : Nat :=
  if i < 20 then 1518500249
  else if i < 40 then 1859775393
  else if i < 60 then 2400959708
  else 3395469782

def sha1Rounds : Nat → List Nat → Nat × Nat × Nat × Nat × Nat →
    Nat × Nat × Nat × Nat × Nat
  | _, [], st => st
  | i, w :: ws, (a, b, c, d, e) =>
    let t := w32 (rotl 5 a + sha1F i b c d + e + sha1K i + w)
    sha1Rounds (i + 1) ws (t, a, rotl 30 b, c, d)

/-- Process one 64-byte chunk. -/
def sha1Chunk (h : Nat × Nat × Nat × Nat × Nat) (chunk : List Nat) :
    Nat × Nat × Nat × Nat × Nat :=
  let ws := (sha1Extend 64 (bytesToWords chunk).reverse).reverse
  let (h0, h1, h2, h3, h4) := h
  let (a, b, c, d, e) := sha1Rounds 0 ws (h0, h1, h2, h3, h4)
  (w32 (h0 + a), w32 (h1 + b), w32 (h2 + c), w32 (h3 + d), w32 (h4 + e))

def sha1ChunksGo : Nat → (Nat × Nat × Nat × Nat × Nat) → List Nat →
    Nat × Nat × Nat × Nat × Nat
  | 0, h, _ => h
  | _ + 1, h, [] => h
  | f + 1, h, b :: rest =>
    sha1ChunksGo f (sha1Chunk h ((b :: rest).take 64)) ((b :: rest).drop 64)

def sha1Words (msg : List Nat) : Nat × Nat × Nat × Nat × Nat :=
  let padded := sha1Pad msg
  sha1ChunksGo (padded.length + 1) (1732584193, 4023233417, 2562383102, 271733878, 3285377520) padded

def hexDigitsLower : Str := ('0' :: '1' :: '2' :: '3' :: '4' :: '5' :: '6' :: '7' ::
  '8' :: '9' :: 'a' :: 'b' :: 'c' :: 'd' :: 'e' :: 'f' :: [])

def hexDigitChar (n : Nat) : Char := hexDigitsLower.getD n '0'

/-- A 32-bit word as 8 lowercase hex digits. -/
def wordToHex8 (w : Nat) : Str :=
  (List.range 8).map (fun k => hexDigitChar ((w >>> ((7 - k) * 4)) % 16))

/-- `hashlib.sha1(bytes).hexdigest()`. -/
def sha1Hex (msg : List Nat) : Str :=
  let (h0, h1, h2, h3, h4) := sha1Words msg
  wordToHex8 h0 ++ wordToHex8 h1 ++ wordToHex8 h2 ++ wordToHex8 h3 ++ wordToHex8 h4

/-! ### Codecs and `normalize_text` (from `batch_full_profile.py`) -/

/-- `text.encode('latin-1', errors='strict')`. -/
def latin1EncodeStrict (s : Str) : Option (List Nat) :=
  if s.all (fun c => c.toNat ≤ 255) then some (s.map Char.toNat) else none

/-- `text.encode('latin-1', errors='ignore')`. -/
def latin1EncodeIgnore (s : Str) : List Nat :=
  (s.filter (fun c => c.toNat ≤ 255)).map Char.toNat

/-- The defined 0x80..0x9F slots of Windows-1252: code point to byte. -/
def cp1252Table : List (Nat × Nat) :=
  [(8364, 128), (8218, 130), (402, 131), (8222, 132), (8230, 133), (8224, 134),
   (8225, 135), (710, 136), (8240, 137), (352, 138), (8249, 139), (338, 140),
   (381, 142), (8216, 145), (8217, 146), (8220, 147), (8221, 148), (8226, 149),
   (8211, 150), (8212, 151), (732, 152), (8482, 153), (353, 154), (8250, 155),
   (339, 156), (382, 158), (376, 159)]

def cp1252Byte (c : Char) : Option Nat :=
  let n := c.toNat
  if n < 128 then some n
  else
    match cp1252Table.find? (fun p => p.1 = n) with
    | some p => some p.2
    | none => if 160 ≤ n && n ≤ 255 then some n else none

def cp1252EncodeStrict (s : Str) : Option (List Nat) :=
  if s.all (fun c => (cp1252Byte c).isSome) then some (s.filterMap cp1252Byte)
  else none

def cp1252EncodeIgnore (s : Str) : List Nat := s.filterMap cp1252Byte

/-- One step of the CPython UTF-8 decoder: a decoded code point with its
byte count, or the number of bytes of the maximal invalid subpart. -/
def utf8Step : List Nat → Sum (Nat × Nat) Nat
  | [] => Sum.inr 0
  | b :: rest =>
    if b < 128 then Sum.inl (b, 1)
    else if 194 ≤ b && b ≤ 223 then
      match rest with
      | b1 :: _ =>
        if 128 ≤ b1 && b1 ≤ 191 then Sum.inl ((b - 192) * 64 + (b1 - 128), 2)
        else Sum.inr 1
      | [] => Sum.inr 1
    else if 224 ≤ b && b ≤ 239 then
      let lo1 := if b = 224 then 160 else 128
      let hi1 := if b = 237 then 159 else 191
      match rest with
      | b1 :: rest1 =>
        if lo1 ≤ b1 && b1 ≤ hi1 then
          match rest1 with
          | b2 :: _ =>
            if 128 ≤ b2 && b2 ≤ 191 then
              Sum.inl ((b - 224) * 4096 + (b1 - 128) * 64 + (b2 - 128), 3)
            else Sum.inr 2
          | [] => Sum.inr 2
        else Sum.inr 1
      | [] => Sum.inr 1
    else if 240 ≤ b && b ≤ 244 then
      let lo1 := if b = 240 then 144 else 128
      let hi1 := if b = 244 then 143 else 191
      match rest with
      | b1 :: rest1 =>
        if lo1 ≤ b1 && b1 ≤ hi1 then
          match rest1 with
          | b2 :: rest2 =>
            if 128 ≤ b2 && b2 ≤ 191 then
              match rest2 with
              | b3 :: _ =>
                if 128 ≤ b3 && b3 ≤ 191 then
                  Sum.inl ((b - 240) * 262144 + (b1 - 128) * 4096 + (b2 - 128) * 64 + (b3 - 128), 4)
                else Sum.inr 3
              | [] => Sum.inr 3
            else Sum.inr 2
          | [] => Sum.inr 2
        else Sum.inr 1
      | [] => Sum.inr 1
    else Sum.inr 1

/-- `bytes.decode('utf-8', errors='strict')`. -/
def utf8DecodeStrictGo : Nat → List Nat → Option Str
  | 0, _ => none
  | _ + 1, [] => some []
  | f + 1, b :: rest =>
    match utf8Step (b :: rest) with
    | Sum.inl (cp, n) =>
      match utf8DecodeStrictGo f ((b :: rest).drop n) with
      | some s => some (Char.ofNat cp :: s)
      | none => none
    | Sum.inr _ => none

def utf8DecodeStrict (bytes : List Nat) : Option Str :=
  utf8DecodeStrictGo (bytes.length + 1) bytes

/-- `bytes.decode('utf-8', errors='ignore')`. -/
def utf8DecodeIgnoreGo : Nat → List Nat → Str
  | 0, _ => []
  | _ + 1, [] => []
  | f + 1, b :: rest =>
    match utf8Step (b :: rest) with
    | Sum.inl (cp, n) => Char.ofNat cp :: utf8DecodeIgnoreGo f ((b :: rest).drop n)
    | Sum.inr k => utf8DecodeIgnoreGo f ((b :: rest).drop (max k 1))

def utf8DecodeIgnore (bytes : List Nat) : Str :=
  utf8DecodeIgnoreGo (bytes.length + 1) bytes

/-- `_MOJIBAKE_MARKERS` of `batch_full_profile.py`, at code-point level. -/
def mojibakeMarkers : List Str :=
  [[Char.ofNat 195], [Char.ofNat 194],
   [Char.ofNat 226, Char.ofNat 8364],
   [Char.ofNat 226, Char.ofNat 8364, Char.ofNat 339],
   [Char.ofNat 226, Char.ofNat 8364, Char.ofNat 157],
   [Char.ofNat 226, Char.ofNat 8364, Char.ofNat 8482],
   [Char.ofNat 226, Char.ofNat 8364, Char.ofNat 8220],
   [Char.ofNat 226, Char.ofNat 8364, Char.ofNat 8221],
   [Char.ofNat 240, Char.ofNat 376],
   [Char.ofNat 239, Char.ofNat 191, Char.ofNat 189]]

/-- `_count_mojibake_markers`. -/
def countMojibakeMarkers (text : Str) : Nat :=
  (mojibakeMarkers.map (fun m => countSub m text)).sum

/-- `_maybe_fix_mojibake(text, codec, strict)`: re-encode through a legacy
codec and decode back as UTF-8; `None` on a codec error. -/
def maybeFixMojibake (text : Str) (latin1 strict : Bool) : Option Str :=
  if strict then
    match (if latin1 then latin1EncodeStrict text else cp1252EncodeStrict text) with
    | some bytes => utf8DecodeStrict bytes
    | none => none
  else
    some (utf8DecodeIgnore (if latin1 then latin1EncodeIgnore text else cp1252EncodeIgnore text))

/-- Python `a or b` over `Optional[str]` (both `None` and `''` are falsy). -/
def pyOrStr (a b : Option Str) : Option Str :=
  match a with
  | some s => if s = [] then b else some s
  | none => b

/-- One iteration body of the mojibake repair loop: the accepted candidate,
or `none` when the loop `break`s. -/
def mojibakeCandidate (text : Str) : Option Str :=
  let score := countMojibakeMarkers text
  let cand1 := pyOrStr (maybeFixMojibake text true true) (maybeFixMojibake text false true)
  let cand2 :=
    match cand1 with
    | none => pyOrStr (maybeFixMojibake text true false) (maybeFixMojibake text false false)
    | some c => if countMojibakeMarkers c ≥ score then
        pyOrStr (maybeFixMojibake text true false) (maybeFixMojibake text false false)
      else some c
  match cand2 with
  | none => none
  | some c => if countMojibakeMarkers c ≥ score then none else some c

def anyMarker (text : Str) : Bool := mojibakeMarkers.any (fun m => subOccurs m text)

/-- The `for _ in range(2)` repair loop of `normalize_text`. -/
def mojibakeLoop : Nat → Str → Str
  | 0, t => t
  | f + 1, t =>
    if anyMarker t then
      match mojibakeCandidate t with
      | some c => mojibakeLoop f c
      | none => t
    else t

/-- Named HTML entities modelled from `html.unescape` (the slice of the
entity table that this corpus can produce). -/
def htmlEntities : List (Str × Char) :=
  [(('a' :: 'm' :: 'p' :: []), '&'), (('l' :: 't' :: []), '<'), (('g' :: 't' :: []), '>'),
   (('q' :: 'u' :: 'o' :: 't' :: []), '"'), (('a' :: 'p' :: 'o' :: 's' :: []), Char.ofNat 39),
   (('c' :: 'c' :: 'e' :: 'd' :: 'i' :: 'l' :: []), Char.ofNat 231),
   (('a' :: 't' :: 'i' :: 'l' :: 'd' :: 'e' :: []), Char.ofNat 227),
   (('n' :: 'b' :: 's' :: 'p' :: []), Char.ofNat 160)]

/-- `html.unescape` (modelled over the named entities above; text without
`&` passes through unchanged, as in the stdlib). -/
def pyHtmlUnescapeGo : Nat → Str → Str
  | 0, s => s
  | _ + 1, [] => []
  | f + 1, c :: rest =>
    if c = '&' then
      match htmlEntities.find? (fun e => startsL (e.1 ++ (';' :: [])) rest) with
      | some e => e.2 :: pyHtmlUnescapeGo f (rest.drop (e.1.length + 1))
      | none => c :: pyHtmlUnescapeGo f rest
    else c :: pyHtmlUnescapeGo f rest

def pyHtmlUnescape (s : Str) : Str := pyHtmlUnescapeGo (s.length + 1) s

/-- `normalize_text` (str branch) of `batch_full_profile.py`. -/
def normalize_text (value : Str) (unescapeHtml : Bool := true) : Str :=
  let text := if unescapeHtml then pyHtmlUnescape value else value
  let text := replaceSub ('\r' :: '\n' :: []) ('\n' :: []) text
  let text := replaceSub ('\r' :: []) ('\n' :: []) text
  mojibakeLoop 2 text

/-! ### String literals used by the source patterns -/

def litSpDotSp : Str := (" . ".toList)
def litSpSemiSp : Str := (" ; ".toList)
def litSemiSp : Str := ("; ".toList)
def litDotL : Str := (".".toList)
def litDotSp : Str := (". ".toList)
def litDotSpace : Str := ('.' :: ' ' :: [])
def litInColon : Str := ("In:".toList)
def litOrgDot : Str := ("(Org.)".toList)
def litOrgDotDot : Str := ("(Org.).".toList)
def litSpaceSemi : Str := (' ' :: ';' :: [])

/-! ### Regex building blocks -/

/-- `19\d{2}|20\d{2}` at the head of the string; returns the year value. -/
def year4At : Str → Option Nat
  | d1 :: d2 :: d3 :: d4 :: _ =>
    if ((d1 = '1' && d2 = '9') || (d1 = '2' && d2 = '0')) && d3.isDigit && d4.isDigit then
      some (((d1.toNat - 48) * 10 + (d2.toNat - 48)) * 100 + (d3.toNat - 48) * 10 + (d4.toNat - 48))
    else none
  | _ => none

/-- `\d{4}` at the head of the string. -/
def digits4At : Str → Option Nat
  | d1 :: d2 :: d3 :: d4 :: _ =>
    if d1.isDigit && d2.isDigit && d3.isDigit && d4.isDigit then
      some (((d1.toNat - 48) * 10 + (d2.toNat - 48)) * 100 + (d3.toNat - 48) * 10 + (d4.toNat - 48))
    else none
  | _ => none

def boundaryBefore (prev : Option Char) : Bool :=
  match prev with
  | none => true
  | some p => !pyIsWord p

/-- `re.sub(r'<[^>]+>', '', s)` match step. -/
def stripTagsMatch (_ : Option Char) (s : Str) : Option (Str × Nat × Option Char) :=
  match s with
  | '<' :: rest =>
    let (run, r) := rest.span (fun c => c ≠ '>')
    if run ≠ [] && r ≠ [] then some ([], run.length + 1, some '>') else none
  | _ => none

def stripTags (s : Str) : Str := subAll stripTagsMatch none s

/-- `re.sub(r'([A-Z]\.)\s*(19\d{2}|20\d{2})', r'\1', s)` match step. -/
def gluedYearMatch (_ : Option Char) (s : Str) : Option (Str × Nat × Option Char) :=
  match s with
  | c :: '.' :: r2 =>
    if isUpperAZ c then
      let (ws, r3) := r2.span pyIsSpace
      match year4At r3 with
      | some _ => some ((c :: '.' :: []), 5 + ws.length, some (r3.getD 3 '0'))
      | none => none
    else none
  | _ => none

/-- `re.sub(r'\b(19\d{2}|20\d{2})\b', '', s)` match step (`clean_autores`). -/
def yearTokenMatch (prev : Option Char) (s : Str) : Option (Str × Nat × Option Char) :=
  if boundaryBefore prev then
    match year4At s with
    | some _ =>
      match s.drop 4 with
      | [] => some ([], 3, some (s.getD 3 '0'))
      | c :: _ => if !pyIsWord c then some ([], 3, some (s.getD 3 '0')) else none
    | none => none
  else none

/-- `re.sub(r'(\b[A-Z]{2,},\s*[A-Z]\.)\s*(19\d{2}|20\d{2})\s*\1', r'\1', s)`
match step: a duplicated `SURNAME, I.` echo around a year collapses to one
occurrence. -/
def echoYearMatch (prev : Option Char) (s : Str) : Option (Str × Nat × Option Char) :=
  if boundaryBefore prev then
    let (run, r1) := s.span isUpperAZ
    if run.length ≥ 2 then
      match r1 with
      | ',' :: r2 =>
        let (ws1, r3) := r2.span pyIsSpace
        match r3 with
        | u :: '.' :: r5 =>
          if isUpperAZ u then
            let g1 := run ++ (',' :: []) ++ ws1 ++ (u :: '.' :: [])
            let (ws2, r6) := r5.span pyIsSpace
            match year4At r6 with
            | some _ =>
              let r7 := r6.drop 4
              let (ws3, r8) := r7.span pyIsSpace
              if startsL g1 r8 then
                some (g1, 2 * g1.length + ws2.length + 4 + ws3.length - 1, some '.')
              else none
            | none => none
          else none
        | _ => none
      | _ => none
    else none
  else none

/-- `re.sub(r'\s*;\s*', '; ', s)` match step. -/
def semiMatch (_ : Option Char) (s : Str) : Option (Str × Nat × Option Char) :=
  let (ws1, r1) := s.span pyIsSpace
  match r1 with
  | ';' :: r2 =>
    let (ws2, _) := r2.span pyIsSpace
    some (litSemiSp, ws1.length + ws2.length, some (if ws2 = [] then ';' else ws2.getLastD ';'))
  | _ => none

/-- `clean_autores` of `parsers/utils.py`. -/
def clean_autores (raw_autores : Str) : Str :=
  if raw_autores = [] then [] else
  let text := pyHtmlUnescape raw_autores
  let text := stripTags text
  let text := text.map (fun c => if c.toNat = 160 then ' ' else c)
  let text := subAll gluedYearMatch none text
  let text := subAll yearTokenMatch none text
  let text := subAll echoYearMatch none text
  let text := pyStrip (collapseWs text)
  let text := subAll semiMatch none text
  stripChars litSpaceSemi text

/-! ### `split_citacao` of `parsers/utils.py` -/

/-- `\s+[A-ZÀ-Ú]{2,}` as a prefix of `s`. -/
def spUpper2 (s : Str) : Bool :=
  let (ws, r) := s.span pyIsSpace
  ws ≠ [] &&
    match r with
    | a :: b :: _ => isUpperAcc a && isUpperAcc b
    | _ => false

/-- `re.search(r'^(.+?)\.\s+[A-ZÀ-Ú]{2,}', s)`: the lazily shortest prefix
before a period followed by whitespace and two uppercase letters. -/
def fb1Go : Str → Str → Option Str
  | _, [] => none
  | acc, c :: rest =>
    if c = '.' && acc ≠ [] && spUpper2 rest then some acc.reverse
    else if c = '\n' then none
    else fb1Go (c :: acc) rest

def matchFb1 (s : Str) : Option Str := fb1Go [] s

/-- `\s\.\s` at the head of `s`. -/
def wsDotWsAt : Str → Bool
  | a :: b :: c :: _ => pyIsSpace a && b = '.' && pyIsSpace c
  | _ => false

/-- Inner scan of `re.search(r'\s\.\s(.*?)\s\.\s', s)`: collect the lazy
group up to the closing delimiter. -/
def midTitleInner : Str → Str → Option Str
  | _, [] => none
  | acc, c :: rest =>
    if wsDotWsAt (c :: rest) then some acc.reverse
    else if c = '\n' then none
    else midTitleInner (c :: acc) rest

def midTitleFind : Str → Option Str
  | [] => none
  | c :: rest =>
    (if wsDotWsAt (c :: rest) then midTitleInner [] ((c :: rest).drop 3) else none).orElse
      (fun _ => midTitleFind rest)

/-- One candidate of `re.finditer(r'\.\s+([^.]+?)\.', s)` at a position
whose head is the opening dot: the group and the `match.end` offset
relative to the text after the dot. -/
def tituloCandAt (rest : Str) : Option (Str × Nat) :=
  let (ws, r1) := rest.span pyIsSpace
  if ws = [] then none
  else
    let (body, r2) := r1.span (fun c => c ≠ '.')
    match r2 with
    | '.' :: _ =>
      if body ≠ [] then some (body, ws.length + body.length + 1)
      else if ws.length ≥ 2 then some ((ws.getLastD ' ') :: [], ws.length + 1)
      else none
    | _ => none

/-- The (fuel-bounded) candidate loop over `re.finditer(r'\.\s+([^.]+?)\.')`
keeping the first candidate longer than 10 characters. -/
def findTituloCandGo : Nat → Str → Option Str
  | 0, _ => none
  | _ + 1, [] => none
  | f + 1, c :: rest =>
    if c = '.' then
      match tituloCandAt rest with
      | some (grp, skip) =>
        let cand := stripChars litDotL (pyStrip grp)
        if cand.length > 10 then some cand
        else findTituloCandGo f (rest.drop skip)
      | none => findTituloCandGo f rest
    else findTituloCandGo f rest

def findTituloCand (s : Str) : Option Str := findTituloCandGo (s.length + 1) s

/-- `re.search(r'In:\s*([^,\.]+)', s)` at a position: greedy `\s*` then the
non-empty `[^,\.]+` group, with the one-step backtrack when the group would
otherwise be empty. -/
def inVenueAt (s : Str) : Option Str :=
  if startsL litInColon s then
    let r1 := s.drop 3
    let (ws, r2) := r1.span pyIsSpace
    let (g2, _) := r2.span (fun c => c ≠ ',' && c ≠ '.')
    if g2 ≠ [] then some g2
    else if ws ≠ [] then some ((ws.getLastD ' ') :: [])
    else none
  else none

def inVenueFind : Str → Option Str
  | [] => none
  | c :: rest => (inVenueAt (c :: rest)).orElse (fun _ => inVenueFind rest)

/-- `(?<=\s)\b(19\d{2}|20\d{2})\b(?=\s*(?:;|,|$))` match step (year token
removal inside `split_citacao`). -/
def yearLookMatch (prev : Option Char) (s : Str) : Option (Str × Nat × Option Char) :=
  match prev with
  | some p =>
    if pyIsSpace p then
      match year4At s with
      | some _ =>
        let r := s.drop 4
        let bAfter := match r with | [] => true | c :: _ => !pyIsWord c
        let (_, r2) := r.span pyIsSpace
        let lookOk := match r2 with | [] => true | c :: _ => c = ';' || c = ','
        if bAfter && lookOk then some ([], 3, some (s.getD 3 '0')) else none
      | none => none
    else none
  | none => none

/-- `split_citacao` of `parsers/utils.py`: split a citation into
(autores, titulo, veiculo_ou_livro). -/
def split_citacao (raw : Str) : Str × Str × Str :=
  if raw = [] then ([], [], []) else
  let raw_text := raw
  let parts := ((splitOnSub litSpDotSp raw_text).map pyStrip).filter (fun p => p ≠ [])
  let autores_raw0 := parts.getD 0 []
  let titulo_raw := parts.getD 1 []
  let resto_raw0 :=
    if parts.length ≥ 3 then pyStrip (List.intercalate litSpDotSp (parts.drop 2)) else []
  let autores_raw :=
    if parts.length = 1 && raw_text ≠ [] then
      match matchFb1 raw_text with
      | some g => pyStrip g
      | none => autores_raw0
    else autores_raw0
  let autores :=
    if autores_raw ≠ [] then
      let a := replaceSub litSpSemiSp litSemiSp autores_raw
      let a := subAll gluedYearMatch none a
      let a := subAll yearLookMatch none a
      let a := pyStrip (collapseWs a)
      pyStrip (stripCharsR litDotL a)
    else autores_raw
  let titulo0 :=
    if titulo_raw ≠ [] then stripChars litDotL (pyStrip titulo_raw)
    else
      match midTitleFind raw with
      | some g => stripChars litDotL (pyStrip g)
      | none => (findTituloCand raw).getD []
  let tr :=
    if titulo_raw ≠ [] && resto_raw0 = [] && subOccurs litDotSp titulo_raw then
      match (splitOnceSub litDotSp titulo_raw).2 with
      | some rc =>
        let tc := (splitOnceSub litDotSp titulo_raw).1
        if tc ≠ [] && rc ≠ [] then (stripChars litDotL (pyStrip tc), pyStrip rc)
        else (titulo0, resto_raw0)
      | none => (titulo0, resto_raw0)
    else if titulo0 ≠ [] && resto_raw0 = [] then
      if subOccurs titulo0 raw_text then
        let after := ((splitOnceSub titulo0 raw_text).2).getD []
        let remainder := pyStrip (stripCharsL litDotSpace after)
        if remainder ≠ [] then (titulo0, remainder) else (titulo0, resto_raw0)
      else (titulo0, resto_raw0)
    else (titulo0, resto_raw0)
  let titulo := tr.1
  let resto_raw := tr.2
  let veiculo0 :=
    if resto_raw ≠ [] then stripChars litDotL (pyStrip (resto_raw.takeWhile (fun c => c ≠ ','))) else []
  let veiculo :=
    if subOccurs litInColon resto_raw || subOccurs litInColon titulo_raw || subOccurs litInColon raw then
      match inVenueFind raw with
      | some g => stripChars litDotL (pyStrip g)
      | none => veiculo0
    else veiculo0
  (autores, titulo, veiculo)

/-! ### The item record (flat JSON-serializable dict emitted per entry) -/

/-- Python values stored in the `ano` field: parsers write ints, but the
year filter also accepts digit strings. -/
inductive AnoV where
  | int (n : Nat)
  | str (s : Str)
  deriving DecidableEq

structure Item where
  numero_item : Nat
  raw : Str
  autores : Option Str := none
  titulo : Option Str := none
  ano : Option AnoV := none
  mes : Option Str := none
  veiculo : Option Str := none
  livro : Option Str := none
  local_ : Option Str := none
  volume : Option Str := none
  paginas : Option Str := none
  doi : Option Str := none
  isbn : Option Str := none
  editora : Option Str := none
  edicao : Option Str := none
  fingerprint_sha1 : Str := []
  html_snippet : Str := []
  deriving DecidableEq

instance : Inhabited Item := ⟨{ numero_item := 0, raw := [] }⟩

/-- Python truthiness of an optional string field (`item.get(k)`). -/
def truthyO : Option Str → Bool
  | some s => s ≠ []
  | none => false

def digitsToNat (s : Str) : Nat := s.foldl (fun acc c => acc * 10 + (c.toNat - 48)) 0

/-! ### Shared year-token search: `re.findall(r'\b(19\d{2}|20\d{2})\b', s)`
(used by ArtigoParser, GenericParser, TextoJornalParser and
`_infer_year_from_item`); the callers take `matches[-1]`. -/

def yearTokenFindAll : Nat → Option Char → Str → List Nat
  | 0, _, _ => []
  | _ + 1, _, [] => []
  | f + 1, prev, c :: rest =>
    if boundaryBefore prev then
      match year4At (c :: rest) with
      | some y =>
        let after := (c :: rest).drop 4
        let bAfter := match after with | [] => true | d :: _ => !pyIsWord d
        if bAfter then y :: yearTokenFindAll f (some ((c :: rest).getD 3 '0')) after
        else yearTokenFindAll f (some c) rest
      | none => yearTokenFindAll f (some c) rest
    else yearTokenFindAll f (some c) rest

/-- Rightmost `(19|20)xx` word token, the shared year heuristic. -/
def lastYearToken (s : Str) : Option Nat := (yearTokenFindAll (s.length + 1) none s).getLast?

/-- `\s+\.\s+[A-ZÀ-Ú]` as a prefix of `s`. -/
def wsDotWsUpperAt (s : Str) : Bool :=
  let (ws1, r1) := s.span pyIsSpace
  ws1 ≠ [] &&
    match r1 with
    | '.' :: r2 =>
      let (ws2, r3) := r2.span pyIsSpace
      ws2 ≠ [] && (match r3 with | u :: _ => isUpperAcc u | [] => false)
    | _ => false

/-- `re.search(r'^(.+?)\s+\.\s+[A-ZÀ-Ú]', texto)`: lazily shortest non-empty
prefix before the structural delimiter followed by an uppercase letter
(author extraction of ArtigoParser and GenericParser). -/
def matchAutoresFbGo : Str → Str → Option Str
  | _, [] => none
  | acc, c :: rest =>
    if acc ≠ [] && wsDotWsUpperAt (c :: rest) then some acc.reverse
    else if c = '\n' then none
    else matchAutoresFbGo (c :: acc) rest

def matchAutoresFb (s : Str) : Option Str := matchAutoresFbGo [] s

/-- `re.search(r'\s+\.\s+', texto)`: the remainder after the first greedy
match of the structural delimiter. -/
def wsDotWsMatchAt (s : Str) : Option Str :=
  let (ws1, r1) := s.span pyIsSpace
  if ws1 = [] then none
  else
    match r1 with
    | '.' :: r2 =>
      let (ws2, r3) := r2.span pyIsSpace
      if ws2 = [] then none else some r3
    | _ => none

def findWsDotWs : Str → Option Str
  | [] => none
  | c :: rest => (wsDotWsMatchAt (c :: rest)).orElse (fun _ => findWsDotWs rest)

/-! ### ArtigoParser (`parsers/artigos_v2.py`) -/

namespace ArtigoParser

/-- `_extract_autores`. -/
def extract_autores (texto : Str) : Option Str :=
  match matchAutoresFb texto with
  | none => none
  | some autores_raw =>
    let toks := (splitChar ';' autores_raw).map (fun a => clean_autores (clean_text (stripTags a)))
    let toks := toks.filter (fun t => t.length > 2)
    if toks = [] then none
    else
      let cleaned := List.intercalate litSemiSp toks
      if cleaned = [] then none else some (clean_autores cleaned)

/-- `_extract_ano_from_text`. -/
def extract_ano_from_text (texto : Str) : Option Nat := lastYearToken texto

/-- The dead fallback of `_extract_metadata`:
`re.search(r'^\S.*?\s+\.\s+([A-ZÀ-Ú])', texto)`, yielding the text from the
matched uppercase letter on. -/
def hatFbGo : Str → Option Str
  | [] => none
  | c :: rest =>
    match wsDotWsMatchAt (c :: rest) with
    | some tail => (match tail with | u :: t2 => if isUpperAcc u then some (u :: t2) else none | [] => none)
    | none => if c = '\n' then none else hatFbGo rest

def matchHatFb (texto : Str) : Option Str :=
  match texto with
  | [] => none
  | c0 :: rest0 => if pyIsSpace c0 then none else hatFbGo rest0

/-- The character class `[\d\-—–]` (pages). -/
def isPageChar (c : Char) : Bool := c.isDigit || c = '-' || c.toNat = 8212 || c.toNat = 8211

/-- After the title dot of
`^(.+?)\.\s*([^,]+),\s*v\.\s*(\S+),\s*p\.\s*([\d\-—–]+)`: venue up to the
first comma (single-space backtrack when empty), `v.`, then the volume
`\S+` backtracking to its rightmost workable internal comma, `p.`, pages. -/
def mainPatVol (commaIdxs : List Nat) (r : Str) (tail : Str) : Option (Str × Str) :=
  match commaIdxs with
  | [] => none
  | idx :: more =>
    let p := r.take idx
    if p = [] then mainPatVol more r tail
    else
      let rest2 := r.drop (idx + 1) ++ tail
      let (_, r7) := rest2.span pyIsSpace
      match r7 with
      | 'p' :: '.' :: r8 =>
        let (_, r9) := r8.span pyIsSpace
        let (pg, _) := r9.span isPageChar
        if pg ≠ [] then some (p, pg) else mainPatVol more r tail
      | _ => mainPatVol more r tail

/-- 0-based positions of `,` in `s`, rightmost first. -/
def commaPositions (s : Str) : List Nat :=
  ((List.range s.length).filter (fun i => s.getD i ' ' = ',')).reverse

def mainPatRest (afterDot : Str) : Option (Str × Str × Str) :=
  let (ws, r1) := afterDot.span pyIsSpace
  let (venueRun, r2) := r1.span (fun c => c ≠ ',')
  match r2 with
  | ',' :: r3 =>
    match (if venueRun ≠ [] then some venueRun
           else if ws ≠ [] then some ((ws.getLastD ' ') :: []) else none) with
    | none => none
    | some venue =>
      let (_, r4) := r3.span pyIsSpace
      match r4 with
      | 'v' :: '.' :: r5 =>
        let (_, r6) := r5.span pyIsSpace
        let (rr, tail) := r6.span (fun c => !pyIsSpace c)
        if rr = [] then none
        else
          match mainPatVol (commaPositions rr) rr tail with
          | some (vol, pg) => some (venue, vol, pg)
          | none => none
      | _ => none
  | _ => none

/-- The anchored lazy-title scan of the main article pattern. -/
def mainPatGo : Str → Str → Option (Str × Str × Str × Str)
  | _, [] => none
  | acc, c :: rest =>
    if c = '.' && acc ≠ [] then
      match mainPatRest rest with
      | some (v, vol, pg) => some (acc.reverse, v, vol, pg)
      | none => mainPatGo (c :: acc) rest
    else if c = '\n' then none
    else mainPatGo (c :: acc) rest

def mainPatFind (s : Str) : Option (Str × Str × Str × Str) := mainPatGo [] s

/-- One alternative of `(?:\.\s+[A-ZÀ-Ú]|,\s*v\.|\.\s*$)` at the current
position, yielding the remainder after `match.end()`. -/
def fbTitleAlt (s : Str) : Option Str :=
  match s with
  | '.' :: r1 =>
    let (ws, r2) := r1.span pyIsSpace
    (if ws ≠ [] then
      match r2 with
      | u :: r3 => if isUpperAcc u then some r3 else none
      | [] => none
     else none).orElse (fun _ => if r2 = [] then some [] else none)
  | ',' :: r1 =>
    let (_, r2) := r1.span pyIsSpace
    match r2 with
    | 'v' :: '.' :: r3 => some r3
    | _ => none
  | _ => none

/-- `re.search(r'^(.+?)(?:\.\s+[A-ZÀ-Ú]|,\s*v\.|\.\s*$)', texto)`:
(group 1, remainder after the whole match). -/
def fbTitleGo : Str → Str → Option (Str × Str)
  | _, [] => none
  | acc, c :: rest =>
    if acc ≠ [] then
      match fbTitleAlt (c :: rest) with
      | some rem => some (acc.reverse, rem)
      | none => if c = '\n' then none else fbTitleGo (c :: acc) rest
    else if c = '\n' then none
    else fbTitleGo (c :: acc) rest

def fbTitleFind (s : Str) : Option (Str × Str) := fbTitleGo [] s

/-- `re.search(r'^\.?\s*([^,]+)', resto)` (venue of the fallback branch). -/
def venueMatchOpt (resto : Str) : Option Str :=
  let attempt : Str → Option Str := fun s =>
    let (ws, r) := s.span pyIsSpace
    let (g, _) := r.span (fun c => c ≠ ',')
    if g ≠ [] then some g
    else if ws ≠ [] then some ((ws.getLastD ' ') :: [])
    else none
  match resto with
  | '.' :: r1 => (attempt r1).orElse (fun _ => attempt resto)
  | _ => attempt resto

/-- The `&amp;`/`&lt;`/`&gt;`/`&quot;` venue fix-ups. -/
def entityFix (s : Str) : Str :=
  replaceSub ("&quot;".toList) ('"' :: [])
    (replaceSub ("&gt;".toList) ('>' :: [])
      (replaceSub ("&lt;".toList) ('<' :: [])
        (replaceSub ("&amp;".toList) ('&' :: []) s)))

/-- The `texto_sem_autores` computation of `_extract_metadata`. -/
def textoSemAutores (texto : Str) (autores : Option Str) : Str :=
  match findWsDotWs texto with
  | some after => after
  | none =>
    match autores with
    | some _ => (match matchHatFb texto with | some fromUp => fromUp | none => texto)
    | none => texto

/-- `_extract_metadata` before the final venue entity fix-up. -/
def extract_metadata_core (texto : Str) (autores : Option Str) :
    Option Str × Option Str × Option Str × Option Str :=
  let texto_sem := textoSemAutores texto autores
  match mainPatFind texto_sem with
  | some (t, v, vol, pg) =>
    (some (clean_text t), some (clean_text v), some (pyStrip vol), some (pyStrip pg))
  | none =>
    match fbTitleFind texto_sem with
    | some (g, rem) =>
      let titulo := clean_text g
      let resto := pyStrip rem
      (match venueMatchOpt resto with
       | some vg => (some titulo, some (clean_text (pyStrip (stripCharsL litDotL vg))), none, none)
       | none => (some titulo, none, none, none))
    | none =>
      let primeira :=
        if subOccurs litDotL texto_sem then texto_sem.takeWhile (fun c => c ≠ '.') else texto_sem
      (some (clean_text primeira), none, none, none)

/-- `_extract_metadata`: (titulo, veiculo, volume, paginas); the trailing
`if veiculo:` entity replacement applies only to a truthy venue. -/
def extract_metadata (texto : Str) (autores : Option Str) :
    Option Str × Option Str × Option Str × Option Str :=
  match extract_metadata_core texto autores with
  | (t, some v, vol, pg) => (t, some (if v = [] then v else entityFix v), vol, pg)
  | other => other

/-- `_parse_from_span`: one article item from the cleaned span text (the
DOM-extracted DOI and snippet are parameters of the embedding). -/
def parse_from_span (spanText : Str) (numero_item : Nat) (doi : Option Str)
    (snippet : Str) : Option Item :=
  let raw_text := clean_text spanText
  if raw_text = [] then none
  else
    let autores := extract_autores raw_text
    let ano := extract_ano_from_text raw_text
    let md := extract_metadata raw_text autores
    some { numero_item := numero_item, raw := raw_text, autores := autores,
           titulo := md.1, ano := ano.map AnoV.int, veiculo := md.2.1,
           volume := md.2.2.1, paginas := md.2.2.2, doi := doi,
           fingerprint_sha1 := sha1Hex (utf8Encode raw_text),
           html_snippet := snippet.take 500 }

end ArtigoParser

/-! ### CapituloParser (`parsers/capitulos_v2.py`) -/

namespace CapituloParser

/-- `re.search(r'ISBN[:\s]*([\d\-]+)', texto, re.IGNORECASE)` at one
position. -/
def isbnAt (s : Str) : Option Str :=
  match s with
  | a :: b :: c :: d :: rest =>
    if a.toLower = 'i' && b.toLower = 's' && c.toLower = 'b' && d.toLower = 'n' then
      let (_, r) := rest.span (fun ch => ch = ':' || pyIsSpace ch)
      let (digits, _) := r.span (fun ch => ch.isDigit || ch = '-')
      if digits ≠ [] then some digits else none
    else none
  | _ => none

def isbnFind : Str → Option Str
  | [] => none
  | c :: rest => (isbnAt (c :: rest)).orElse (fun _ => isbnFind rest)

/-- `_extract_isbn`. -/
def extract_isbn (texto : Str) : Option Str := isbnFind texto

/-- `\s+[^.]+\.\s+In:` as a prefix (the tail of the autores pattern after
the first dot). -/
def autTailAt (s : Str) : Bool :=
  let (ws1, r1) := s.span pyIsSpace
  ws1 ≠ [] &&
    (let (body, r2) := r1.span (fun c => c ≠ '.')
     body ≠ [] &&
       match r2 with
       | '.' :: r3 =>
         let (ws2, r4) := r3.span pyIsSpace
         ws2 ≠ [] && startsL litInColon r4
       | _ => false)

/-- `re.search(r'^(.+?)\.\s+[^.]+\.\s+In:', texto)`: lazy group before the
`AUTORES. TITULO. In:` shape. -/
def autoresGo : Str → Str → Option Str
  | _, [] => none
  | acc, c :: rest =>
    if c = '.' && acc ≠ [] && autTailAt rest then some acc.reverse
    else if c = '\n' then none
    else autoresGo (c :: acc) rest

/-- `_extract_autores`. -/
def extract_autores (texto : Str) : Option Str :=
  match autoresGo [] texto with
  | none => none
  | some g =>
    let autores_raw := pyStrip g
    let toks := ((splitChar ';' autores_raw).map clean_text).filter (fun t => t.length > 2)
    if toks = [] then none else some (List.intercalate litSemiSp toks)

/-- `re.search(r'\.\s+([^.]+)\.\s+In:', texto)` at a dot position. -/
def tituloAt (s : Str) : Option Str :=
  match s with
  | '.' :: r1 =>
    let (ws1, r2) := r1.span pyIsSpace
    if ws1 = [] then none
    else
      let (body, r3) := r2.span (fun c => c ≠ '.')
      if body = [] then none
      else
        match r3 with
        | '.' :: r4 =>
          let (ws2, r5) := r4.span pyIsSpace
          if ws2 ≠ [] && startsL litInColon r5 then some body else none
        | _ => none
  | _ => none

def tituloFind : Str → Option Str
  | [] => none
  | c :: rest => (tituloAt (c :: rest)).orElse (fun _ => tituloFind rest)

/-- `_extract_titulo`. -/
def extract_titulo (texto : Str) : Option Str := (tituloFind texto).map clean_text

/-- `re.search(r'\(Org\.\)\.\s+([^.]+)\.\s+(\d+)ed', texto)` at one
position. -/
def livroEdAt (s : Str) : Option (Str × Str) :=
  if startsL litOrgDotDot s then
    let r0 := s.drop 7
    let (ws1, r1) := r0.span pyIsSpace
    if ws1 = [] then none
    else
      let (body, r2) := r1.span (fun c => c ≠ '.')
      if body = [] then none
      else
        match r2 with
        | '.' :: r3 =>
          let (ws2, r4) := r3.span pyIsSpace
          if ws2 = [] then none
          else
            let (digits, r5) := r4.span (fun c => c.isDigit)
            if digits ≠ [] && startsL ('e' :: 'd' :: []) r5 then some (body, digits) else none
        | _ => none
  else none

def livroEdFind : Str → Option (Str × Str)
  | [] => none
  | c :: rest => (livroEdAt (c :: rest)).orElse (fun _ => livroEdFind rest)

/-- `re.search(r'\(Org\.\)\.\s+([^.]+)\.', texto)` at one position. -/
def livroAt (s : Str) : Option Str :=
  if startsL litOrgDotDot s then
    let r0 := s.drop 7
    let (ws1, r1) := r0.span pyIsSpace
    if ws1 = [] then none
    else
      let (body, r2) := r1.span (fun c => c ≠ '.')
      if body ≠ [] && (match r2 with | '.' :: _ => true | _ => false) then some body else none
  else none

def livroFind : Str → Option Str
  | [] => none
  | c :: rest => (livroAt (c :: rest)).orElse (fun _ => livroFind rest)

/-- `_extract_livro_edicao`. -/
def extract_livro_edicao (texto : Str) : Option Str × Option Str :=
  match livroEdFind texto with
  | some (body, digits) => (some (clean_text body), some digits)
  | none =>
    match livroFind texto with
    | some body => (some (clean_text body), none)
    | none => (none, none)

/-- `re.search(r':\s+([^,]+),\s+\d{4}', texto)` at one position. -/
def editoraAt (s : Str) : Option Str :=
  match s with
  | ':' :: r1 =>
    let (ws1, r2) := r1.span pyIsSpace
    if ws1 = [] then none
    else
      let (g, r3) := r2.span (fun c => c ≠ ',')
      match (if g ≠ [] then some (g, r3)
             else if ws1.length ≥ 2 then some (((ws1.getLastD ' ') :: []), r3) else none) with
      | none => none
      | some (grp, rr) =>
        match rr with
        | ',' :: r4 =>
          let (ws2, r5) := r4.span pyIsSpace
          if ws2 ≠ [] && (digits4At r5).isSome then some grp else none
        | _ => none
  | _ => none

def editoraFind : Str → Option Str
  | [] => none
  | c :: rest => (editoraAt (c :: rest)).orElse (fun _ => editoraFind rest)

/-- `_extract_editora`. -/
def extract_editora (texto : Str) : Option Str := (editoraFind texto).map clean_text

/-- `re.search(r',\s+(\d{4}),', texto)` at one position. -/
def anoAt (s : Str) : Option Nat :=
  match s with
  | ',' :: r1 =>
    let (ws1, r2) := r1.span pyIsSpace
    if ws1 = [] then none
    else
      match digits4At r2 with
      | some y => (match r2.drop 4 with | ',' :: _ => some y | _ => none)
      | none => none
  | _ => none

def anoFind : Str → Option Nat
  | [] => none
  | c :: rest => (anoAt (c :: rest)).orElse (fun _ => anoFind rest)

/-- `_extract_ano`. -/
def extract_ano (texto : Str) : Option Nat := anoFind texto

/-- `re.search(r'p\.\s+([\d\-—–]+)', texto)` at one position. -/
def paginasAt (s : Str) : Option Str :=
  match s with
  | 'p' :: '.' :: r1 =>
    let (ws1, r2) := r1.span pyIsSpace
    if ws1 = [] then none
    else
      let (run, _) := r2.span ArtigoParser.isPageChar
      if run ≠ [] then some run else none
  | _ => none

def paginasFind : Str → Option Str
  | [] => none
  | c :: rest => (paginasAt (c :: rest)).orElse (fun _ => paginasFind rest)

/-- `_extract_paginas`. -/
def extract_paginas (texto : Str) : Option Str := paginasFind texto

/-- `_parse_capitulo`: builds the chapter item (always a dict in the
source; DOM-derived DOI and snippet are parameters). -/
def parse_capitulo (spanText : Str) (numero_item : Nat) (doi : Option Str)
    (snippet : Str) : Item :=
  let texto := clean_text spanText
  let le := extract_livro_edicao texto
  { numero_item := numero_item, raw := texto,
    autores := extract_autores texto, titulo := extract_titulo texto,
    ano := (extract_ano texto).map AnoV.int, livro := le.1,
    editora := extract_editora texto, edicao := le.2,
    paginas := extract_paginas texto, isbn := extract_isbn texto, doi := doi,
    fingerprint_sha1 := sha1Hex (utf8Encode texto),
    html_snippet := snippet.take 500 }

/-- The per-block flow of `parse_html`: the `'In:' not in texto or
'(Org.)' not in texto` gate silently skips a block; otherwise
`_parse_capitulo` always yields an item. -/
def parse_block (spanText : Str) (numero_item : Nat) (doi : Option Str)
    (snippet : Str) : Option Item :=
  let texto := clean_text spanText
  if subOccurs litInColon texto && subOccurs litOrgDot texto then
    some (parse_capitulo spanText numero_item doi snippet)
  else none

/-- `parse_html` over the DOM-extracted blocks: the error list is touched
only by the `except Exception` handler, which a total embedding of the
per-block code cannot enter, so it is always empty. -/
def parse_html (blocks : List (Str × Nat × Option Str × Str)) :
    List Item × List Str :=
  (blocks.filterMap (fun b => parse_block b.1 b.2.1 b.2.2.1 b.2.2.2), [])

end CapituloParser

/-! ### TextoJornalParser (`parsers/textos_jornais.py`) -/

namespace TextoJornalParser

/-- `re.search(r'\b[A-ZÀ-Ú]{2,},\s*[A-Z]', text)` at one position. -/
def surnameCommaAt (prev : Option Char) (s : Str) : Option Unit :=
  if boundaryBefore prev then
    let (run, r1) := s.span isUpperAcc
    if run.length ≥ 2 then
      match r1 with
      | ',' :: r2 =>
        let (_, r3) := r2.span pyIsSpace
        (match r3 with
         | u :: _ => if isUpperAZ u then some () else none
         | [] => none)
      | _ => none
    else none
  else none

/-- `_looks_like_author_block`. -/
def looks_like_author_block (text : Str) : Bool :=
  if text = [] then false
  else if text.contains ';' then true
  else (scanFind surnameCommaAt none text).isSome

/-- `\s+(.+)$` after the candidate dot of `^(.+?)\.\s+(.+)$` (inputs are
`clean_text`-normalized, hence newline-free). -/
def textoFbTail (rest : Str) : Option Str :=
  let (ws, r1) := rest.span pyIsSpace
  if ws = [] then none
  else if r1 ≠ [] then some r1
  else if ws.length ≥ 2 then some ((ws.getLastD ' ') :: [])
  else none

def textoFbGo : Str → Str → Option (Str × Str)
  | _, [] => none
  | acc, c :: rest =>
    if c = '.' && acc ≠ [] then
      match textoFbTail rest with
      | some g2 => some (acc.reverse, g2)
      | none => if c = '\n' then none else textoFbGo (c :: acc) rest
    else if c = '\n' then none
    else textoFbGo (c :: acc) rest

/-- `_split_authors_and_remainder`: prefer the literal `' . '` split, then
the gated `^(.+?)\.\s+(.+)$` fallback; `(None, None)` otherwise. -/
def split_authors_and_remainder (raw_text : Str) : Option (Str × Str) :=
  if subOccurs litSpDotSp raw_text then
    let pr := splitOnceSub litSpDotSp raw_text
    some (pyStrip pr.1, pyStrip (pr.2.getD []))
  else
    match textoFbGo [] raw_text with
    | some (g1, g2) =>
      let autores_raw := clean_text g1
      let remainder := clean_text g2
      if looks_like_author_block autores_raw then some (autores_raw, remainder) else none
    | none => none

/-- `_normalize_autores`. -/
def normalize_autores (autores_raw : Str) : Option Str :=
  if autores_raw = [] then none
  else
    let toks := ((splitChar ';' autores_raw).map clean_text).filter (fun t => t.length > 2)
    if toks = [] then none else some (List.intercalate litSemiSp toks)

/-- `_extract_titulo_from_remainder`. -/
def extract_titulo_from_remainder (remainder : Str) : Option Str :=
  let (run, r) := remainder.span (fun c => c ≠ '.')
  if run ≠ [] && r ≠ [] then some (clean_text run)
  else if remainder.contains ',' then some (clean_text (remainder.takeWhile (fun c => c ≠ ',')))
  else none

/-- Any `\d{4}` occurrence (the date-rejection check). -/
def hasDigits4 : Str → Bool
  | [] => false
  | c :: rest => (digits4At (c :: rest)).isSome || hasDigits4 rest

/-- `_extract_veiculo_from_remainder`. -/
def extract_veiculo_from_remainder (remainder : Str) : Option Str :=
  let (run, r) := remainder.span (fun c => c ≠ '.')
  if run = [] then none
  else
    match r with
    | '.' :: r2 =>
      let (ws, r3) := r2.span pyIsSpace
      if ws = [] then none
      else
        let (g, _) := r3.span (fun c => c ≠ ',')
        match (if g ≠ [] then some g
               else if ws.length ≥ 2 then some ((ws.getLastD ' ') :: []) else none) with
        | none => none
        | some grp =>
          let candidate := clean_text grp
          if !hasDigits4 candidate && !startsL ('p' :: []) candidate then some candidate
          else none
    | _ => none

/-- The twelve Portuguese month abbreviations. -/
def mesesList : List Str :=
  [("jan".toList), ("fev".toList), ("mar".toList), ("abr".toList),
   ("mai".toList), ("jun".toList), ("jul".toList), ("ago".toList),
   ("set".toList), ("out".toList), ("nov".toList), ("dez".toList)]

def startsCIL : Str → Str → Bool
  | [], _ => true
  | _ :: _, [] => false
  | p :: ps, c :: cs => p.toLower = c.toLower && startsCIL ps cs

def subOccursCI (needle : Str) : Str → Bool
  | [] => startsCIL needle []
  | c :: rest => startsCIL needle (c :: rest) || subOccursCI needle rest

/-- `re.search(r'(jan|fev|...|dez)', text, re.IGNORECASE)` (the location
rejection test). -/
def hasMonthSub (text : Str) : Bool := mesesList.any (fun m => subOccursCI m text)

/-- `re.search(r',\s+([^,]+),\s+p\.', texto)` at one position. -/
def localAt (s : Str) : Option Str :=
  match s with
  | ',' :: r1 =>
    let (ws1, r2) := r1.span pyIsSpace
    if ws1 = [] then none
    else
      let (g, r3) := r2.span (fun c => c ≠ ',')
      match (if g ≠ [] then some (g, r3)
             else if ws1.length ≥ 2 then some (((ws1.getLastD ' ') :: []), r3) else none) with
      | none => none
      | some (grp, rr) =>
        match rr with
        | ',' :: r4 =>
          let (ws2, r5) := r4.span pyIsSpace
          if ws2 ≠ [] && startsL ('p' :: '.' :: []) r5 then some grp else none
        | _ => none
  | _ => none

def localFind : Str → Option Str
  | [] => none
  | c :: rest => (localAt (c :: rest)).orElse (fun _ => localFind rest)

/-- `_extract_local`: the first match only, rejected when it looks like a
date or month. -/
def extract_local (texto : Str) : Option Str :=
  match localFind texto with
  | some grp =>
    let candidate := clean_text grp
    if !hasDigits4 candidate && !hasMonthSub candidate then some candidate else none
  | none => none

/-- The class `[\w\d\-—–\s]` of the pages pattern. -/
def pageClass (c : Char) : Bool :=
  pyIsWord c || c.isDigit || c = '-' || c.toNat = 8212 || c.toNat = 8211 || pyIsSpace c

/-- Lazy `([\w\d\-—–\s]+?)(?:,|\.|$)`: stop at the first terminator after
at least one class character. -/
def lazyPagesRun : Str → Str → Option Str
  | acc, [] => if acc ≠ [] then some acc.reverse else none
  | acc, c :: rest =>
    if acc ≠ [] && (c = ',' || c = '.') then some acc.reverse
    else if pageClass c then lazyPagesRun (c :: acc) rest
    else none

/-- `re.search(r'p\.\s+([\w\d\-—–\s]+?)(?:,|\.|$)', texto)` at one
position. -/
def paginasAt (s : Str) : Option Str :=
  match s with
  | 'p' :: '.' :: r1 =>
    let (ws, r2) := r1.span pyIsSpace
    if ws = [] then none
    else
      match lazyPagesRun [] r2 with
      | some run => some run
      | none =>
        if ws.length ≥ 2 && (match r2 with | [] => true | c :: _ => c = ',' || c = '.') then
          some ((ws.getLastD ' ') :: [])
        else none
  | _ => none

def paginasFind : Str → Option Str
  | [] => none
  | c :: rest => (paginasAt (c :: rest)).orElse (fun _ => paginasFind rest)

/-- `_extract_paginas`. -/
def extract_paginas (texto : Str) : Option Str := (paginasFind texto).map clean_text

/-- `(jan|...)\.\s+(\d{4})` at one position (the month must be followed by
a period, whitespace and a 4-digit year). -/
def monthYearAt (s : Str) : Option (Nat × Str) :=
  match mesesList.find? (fun m => startsCIL m s) with
  | some _ =>
    (match s.drop 3 with
     | '.' :: r1 =>
       let (ws, r2) := r1.span pyIsSpace
       if ws = [] then none
       else
         (match digits4At r2 with
          | some y => some (y, (s.take 3).map Char.toLower)
          | none => none)
     | _ => none)
  | none => none

/-- `(\d{1,2}\s+)?(month)\.\s+(\d{4})` at one position: the optional
greedy 1–2 digit day, then the month/year core. -/
def dataAt (s : Str) : Option (Nat × Str) :=
  let afterDigits : Str → Option (Nat × Str) := fun r =>
    let (ws, r2) := r.span pyIsSpace
    if ws = [] then none else monthYearAt r2
  match s with
  | d1 :: rest1 =>
    if d1.isDigit then
      match rest1 with
      | d2 :: rest2 =>
        if d2.isDigit then (afterDigits rest2).orElse (fun _ => afterDigits rest1)
        else afterDigits rest1
      | [] => none
    else monthYearAt s
  | [] => none

def dataFind : Str → Option (Nat × Str)
  | [] => none
  | c :: rest => (dataAt (c :: rest)).orElse (fun _ => dataFind rest)

/-- `_extract_data`: (ano, mes). -/
def extract_data (texto : Str) : Option Nat × Option Str :=
  match dataFind texto with
  | some (y, m) => (some y, some m)
  | none =>
    match lastYearToken texto with
    | some y => (some y, none)
    | none => (none, none)

/-- `_parse_item`: the malformed branch (no separator) yields an item with
`autores`, `titulo`, `veiculo`, `local`, `paginas` all `None`. -/
def parse_item (spanText : Str) (numero_item : Nat) (snippet : Str) : Option Item :=
  let raw_text := clean_text spanText
  if raw_text = [] then none
  else
    match split_authors_and_remainder raw_text with
    | some (autores_raw, remainder) =>
      if autores_raw = [] || remainder = [] then
        let am := extract_data raw_text
        some { numero_item := numero_item, raw := raw_text,
               ano := am.1.map AnoV.int, mes := am.2,
               fingerprint_sha1 := sha1Hex (utf8Encode raw_text),
               html_snippet := snippet.take 500 }
      else
        let am := extract_data remainder
        some { numero_item := numero_item, raw := raw_text,
               autores := normalize_autores autores_raw,
               titulo := extract_titulo_from_remainder remainder,
               veiculo := extract_veiculo_from_remainder remainder,
               local_ := extract_local remainder,
               paginas := extract_paginas remainder,
               ano := am.1.map AnoV.int, mes := am.2,
               fingerprint_sha1 := sha1Hex (utf8Encode raw_text),
               html_snippet := snippet.take 500 }
    | none =>
      let am := extract_data raw_text
      some { numero_item := numero_item, raw := raw_text,
             ano := am.1.map AnoV.int, mes := am.2,
             fingerprint_sha1 := sha1Hex (utf8Encode raw_text),
             html_snippet := snippet.take 500 }

/-- `parse_html` over the DOM-extracted blocks: errors only via the
unreachable `except` handler. -/
def parse_html (blocks : List (Str × Nat × Str)) : List Item × List Str :=
  (blocks.filterMap (fun b => parse_item b.1 b.2.1 b.2.2), [])

end TextoJornalParser

/-! ### GenericParser (`parser_router.py`) -/

namespace GenericParser

/-- `re.sub(r'([A-Z]\.)\s*(\d{4})([A-Z]{2,},)', r'\1 \2 \3', s)` match
step (unglue `I.YYYYSURNAME,`). -/
def unglueMatch (_ : Option Char) (s : Str) : Option (Str × Nat × Option Char) :=
  match s with
  | c :: '.' :: r2 =>
    if isUpperAZ c then
      let (ws, r3) := r2.span pyIsSpace
      match digits4At r3 with
      | some _ =>
        let digits := r3.take 4
        let r4 := r3.drop 4
        let (run, r5) := r4.span isUpperAZ
        if run.length ≥ 2 && (match r5 with | ',' :: _ => true | _ => false) then
          some ((c :: '.' :: ' ' :: []) ++ digits ++ (' ' :: []) ++ run ++ (',' :: []),
                ws.length + run.length + 6, some ',')
        else none
      | none => none
    else none
  | _ => none

/-- `re.sub(r'(\b[A-Z]{2,},\s*[A-Z]\.)\s*(\d{4})\s*\1', r'\1 \2', s)` match
step (collapse a duplicated author echo, keeping the year). -/
def echoKeepYearMatch (prev : Option Char) (s : Str) : Option (Str × Nat × Option Char) :=
  if boundaryBefore prev then
    let (run, r1) := s.span isUpperAZ
    if run.length ≥ 2 then
      match r1 with
      | ',' :: r2 =>
        let (ws1, r3) := r2.span pyIsSpace
        match r3 with
        | u :: '.' :: r5 =>
          if isUpperAZ u then
            let g1 := run ++ (',' :: []) ++ ws1 ++ (u :: '.' :: [])
            let (ws2, r6) := r5.span pyIsSpace
            match digits4At r6 with
            | some _ =>
              let digits := r6.take 4
              let r7 := r6.drop 4
              let (ws3, r8) := r7.span pyIsSpace
              if startsL g1 r8 then
                some (g1 ++ (' ' :: []) ++ digits,
                      2 * g1.length + ws2.length + 4 + ws3.length - 1, some '.')
              else none
            | none => none
          else none
        | _ => none
      | _ => none
    else none
  else none

/-- `GenericParser._clean_text`: NBSP, whitespace collapse, the two
un-glue / echo repairs, strip. -/
def gclean_text (s : Str) : Str :=
  let t := s.map (fun c => if c.toNat = 160 then ' ' else c)
  let t := collapseWs t
  let t := subAll unglueMatch none t
  let t := subAll echoKeepYearMatch none t
  pyStrip t

/-- `_extract_autores_heuristic` (takes the span text; the source recleans
it itself). -/
def extract_autores_heuristic (spanText : Str) : Option Str :=
  let full_text := gclean_text spanText
  match matchAutoresFb full_text with
  | some autores_raw =>
    let toks := ((splitChar ';' autores_raw).map (fun a => gclean_text (stripTags a))).filter
      (fun t => t.length > 2)
    if toks ≠ [] then some (List.intercalate litSemiSp toks) else none
  | none => none

/-- `_extract_titulo_heuristic`: text after the structural delimiter up to
the next period, kept only when longer than 10 characters (the `autores`
argument is unused in the source as well). -/
def extract_titulo_heuristic (text : Str) (_autores : Option Str) : Option Str :=
  match findWsDotWs text with
  | some after =>
    let (run, r) := after.span (fun c => c ≠ '.')
    if run ≠ [] && r ≠ [] then
      let titulo := gclean_text run
      if titulo.length > 10 then some titulo else none
    else none
  | none => none

/-- `_extract_ano_heuristic`. -/
def extract_ano_heuristic (text : Str) : Option Nat := lastYearToken text

/-- `_extract_mes_heuristic`: first of the fixed list whose `mes\.` pattern
occurs case-insensitively. -/
def extract_mes_heuristic (text : Str) : Option Str :=
  TextoJornalParser.mesesList.find?
    (fun m => TextoJornalParser.subOccursCI (m ++ ('.' :: [])) text)

/-- The per-block item construction of `GenericParser.parse_html` (no
emptiness guard in the source: an item is always built). -/
def parse_item (spanText : Str) (numero_item : Nat) (doi : Option Str)
    (snippet : Str) : Item :=
  let raw_text := gclean_text spanText
  let autores := extract_autores_heuristic spanText
  { numero_item := numero_item, raw := raw_text, autores := autores,
    titulo := extract_titulo_heuristic raw_text autores,
    ano := (extract_ano_heuristic raw_text).map AnoV.int,
    mes := extract_mes_heuristic raw_text, doi := doi,
    fingerprint_sha1 := sha1Hex (utf8Encode raw_text),
    html_snippet := snippet.take 500 }

end GenericParser

/-! ### Second-pass repair and year filter (`batch_full_profile.py`) -/

/-- `\b` between two positions: exactly one side is a word character. -/
def bAt (prev : Option Char) (next : Option Char) : Bool :=
  (match prev with | some p => pyIsWord p | none => false) ≠
    (match next with | some n => pyIsWord n | none => false)

/-- `re.search(r'(?:\b|\.)\s*(19|20)\d{2}\b', autores)` at one position. -/
def temAnoAt (prev : Option Char) (s : Str) : Option Unit :=
  let yearHere : Str → Option Unit := fun r =>
    match year4At r with
    | some _ =>
      (match r.drop 4 with
       | [] => some ()
       | c :: _ => if !pyIsWord c then some () else none)
    | none => none
  let viaB :=
    if bAt prev s.head? then
      let (_, r) := s.span pyIsSpace
      yearHere r
    else none
  match viaB with
  | some u => some u
  | none =>
    match s with
    | '.' :: r1 =>
      let (_, r2) := r1.span pyIsSpace
      yearHere r2
    | _ => none

/-- `_autores_tem_ano`. -/
def autores_tem_ano (autores : Option Str) : Bool :=
  match autores with
  | none => false
  | some s => if s = [] then false else (scanFind temAnoAt none s).isSome

/-- `_autores_parecem_lista`. -/
def autores_parecem_lista (autores : Option Str) : Bool :=
  match autores with
  | none => false
  | some s =>
    if s = [] then false
    else if s.contains ';' then true
    else (scanFind TextoJornalParser.surnameCommaAt none s).isSome

/-- `_item_parece_capitulo`. -/
def item_parece_capitulo (raw_text : Str) : Bool := subOccurs litInColon raw_text

/-- The per-item body of `_apply_citacao_fallbacks`. -/
def apply_citacao_fallbacks1 (item : Item) : Item :=
  let raw_text := item.raw
  let atv := split_citacao raw_text
  let autores := atv.1
  let titulo := atv.2.1
  let veiculo_ou_livro := atv.2.2
  let item1 :=
    if autores ≠ [] && autores_parecem_lista (some autores) then
      if !truthyO item.autores || autores_tem_ano item.autores then
        { item with autores := some autores }
      else item
    else item
  let item2 :=
    if titulo ≠ [] && !truthyO item1.titulo then { item1 with titulo := some titulo } else item1
  if veiculo_ou_livro ≠ [] then
    if item_parece_capitulo raw_text then
      if !truthyO item2.livro then { item2 with livro := some veiculo_ou_livro } else item2
    else
      if !truthyO item2.veiculo then { item2 with veiculo := some veiculo_ou_livro } else item2
  else item2

/-- `_apply_citacao_fallbacks` over the item list (the loop body touches
each item independently). -/
def apply_citacao_fallbacks (items : List Item) : List Item :=
  items.map apply_citacao_fallbacks1

/-- `_infer_year_from_item`. -/
def infer_year_from_item (item : Item) : Option Nat :=
  match item.ano with
  | some (AnoV.int n) => some n
  | some (AnoV.str s) =>
    let t := pyStrip s
    if t ≠ [] && t.all Char.isDigit then some (digitsToNat t)
    else lastYearToken item.raw
  | none => lastYearToken item.raw

def DEFAULT_ALLOWED_YEARS : List Nat := [2024, 2025]

/-- The accumulating loop of `filter_productions_by_year`. -/
def filterYearsGo (ys : List Nat) : List Item → List Item
  | [] => []
  | item :: rest =>
    match infer_year_from_item item with
    | none => filterYearsGo ys rest
    | some y => if y ∈ ys then item :: filterYearsGo ys rest else filterYearsGo ys rest

/-- `filter_productions_by_year`. -/
def filter_productions_by_year (items : List Item) (allowed_years : Option (List Nat)) :
    List Item :=
  match allowed_years with
  | none => items
  | some ys => filterYearsGo ys items

/-! ### Helper lemmas -/

theorem wordToHex8_length (w : Nat) : (wordToHex8 w).length = 8 := by
  simp [wordToHex8]

theorem hexDigitChar_mem {n : Nat} (h : n < 16) : hexDigitChar n ∈ hexDigitsLower := by
  interval_cases n <;> decide

theorem wordToHex8_mem (w : Nat) : ∀ c ∈ wordToHex8 w, c ∈ hexDigitsLower := by
  intro c hc
  simp only [wordToHex8, List.mem_map, List.mem_range] at hc
  obtain ⟨k, _, rfl⟩ := hc
  exact hexDigitChar_mem (Nat.mod_lt _ (by norm_num))

theorem sha1Hex_length (msg : List Nat) : (sha1Hex msg).length = 40 := by
  rcases h : sha1Words msg with ⟨h0, h1, h2, h3, h4⟩
  simp [sha1Hex, h, wordToHex8_length]

theorem sha1Hex_hexdigits (msg : List Nat) : ∀ c ∈ sha1Hex msg, c ∈ hexDigitsLower := by
  rcases h : sha1Words msg with ⟨h0, h1, h2, h3, h4⟩
  intro c hc
  simp only [sha1Hex, h, List.mem_append] at hc
  rcases hc with ((((hc | hc) | hc) | hc) | hc) <;> exact wordToHex8_mem _ _ hc

/-- The well-formedness every emitted fingerprint must satisfy (claim C1):
it is the SHA-1 hex digest of the UTF-8 bytes of the item's own `raw`
field, 40 characters long, all lowercase hex digits. -/
def fingerprintOk (it : Item) : Prop :=
  it.fingerprint_sha1 = sha1Hex (utf8Encode it.raw) ∧
  it.fingerprint_sha1.length = 40 ∧
  ∀ c ∈ it.fingerprint_sha1, c ∈ hexDigitsLower

theorem fingerprintOk_of_eq {it : Item} (h : it.fingerprint_sha1 = sha1Hex (utf8Encode it.raw)) :
    fingerprintOk it :=
  ⟨h, by rw [h]; exact sha1Hex_length _, by rw [h]; exact sha1Hex_hexdigits _⟩

set_option maxHeartbeats 2000000 in
/-- C1, the four parsers emit `fingerprint_sha1 = sha1(utf8(raw))`. -/
theorem claim1_fingerprint :
    (∀ s n d hs it, ArtigoParser.parse_from_span s n d hs = some it → fingerprintOk it) ∧
    (∀ s n hs it, TextoJornalParser.parse_item s n hs = some it → fingerprintOk it) ∧
    (∀ s n d hs it, CapituloParser.parse_block s n d hs = some it → fingerprintOk it) ∧
    (∀ s n d hs, fingerprintOk (GenericParser.parse_item s n d hs)) := by
  refine ⟨?_, ?_, ?_, ?_⟩
  · intro s n d hs it h
    simp only [ArtigoParser.parse_from_span] at h
    split at h
    · exact absurd h (by simp)
    · injection h with h'
      subst h'
      exact fingerprintOk_of_eq rfl
  · intro s n hs it h
    simp only [TextoJornalParser.parse_item] at h
    split at h
    · exact absurd h (by simp)
    · split at h
      · split at h
        · injection h with h'; subst h'; exact fingerprintOk_of_eq rfl
        · injection h with h'; subst h'; exact fingerprintOk_of_eq rfl
      · injection h with h'; subst h'; exact fingerprintOk_of_eq rfl
  · intro s n d hs it h
    simp only [CapituloParser.parse_block] at h
    split at h
    · injection h with h'
      subst h'
      exact fingerprintOk_of_eq rfl
    · exact absurd h (by simp)
  · intro s n d hs
    exact fingerprintOk_of_eq rfl

def c1WitnessText : Str := ("TERRA, M. C.; FRACETO, L. F. . Essential Oil Nanoemulsion as Fungicide. Crop Protection, v. 10, p. 1-9, 2026.".toList)

def c1WitnessItem : Item := (ArtigoParser.parse_from_span c1WitnessText 1 none []).getD default

/-- C1 witness: the theorem applied to a concrete parsed article. -/
theorem claim1_fingerprint_witness : fingerprintOk c1WitnessItem :=
  claim1_fingerprint.1 c1WitnessText 1 none [] c1WitnessItem (by decide)

/-! ### C4: the frame of the second-pass repair -/

/-- The complete per-field characterization of `_apply_citacao_fallbacks`
on one item (claim C4): `titulo`, `veiculo`, `livro` are written only when
currently falsy, `autores` only under the author-list/embedded-year rule,
and every other field is untouched. -/
def repairFrame (item : Item) : Prop :=
  let r := apply_citacao_fallbacks1 item
  let atv := split_citacao item.raw
  r.raw = item.raw ∧
  r.fingerprint_sha1 = item.fingerprint_sha1 ∧
  r.numero_item = item.numero_item ∧
  r.ano = item.ano ∧
  r.mes = item.mes ∧
  r.local_ = item.local_ ∧
  r.volume = item.volume ∧
  r.paginas = item.paginas ∧
  r.doi = item.doi ∧
  r.isbn = item.isbn ∧
  r.editora = item.editora ∧
  r.edicao = item.edicao ∧
  r.html_snippet = item.html_snippet ∧
  r.autores = (if atv.1 ≠ [] && autores_parecem_lista (some atv.1) &&
      (!truthyO item.autores || autores_tem_ano item.autores) then some atv.1
    else item.autores) ∧
  r.titulo = (if atv.2.1 ≠ [] && !truthyO item.titulo then some atv.2.1 else item.titulo) ∧
  r.livro = (if atv.2.2 ≠ [] && subOccurs litInColon item.raw && !truthyO item.livro then
      some atv.2.2
    else item.livro) ∧
  r.veiculo = (if atv.2.2 ≠ [] && !subOccurs litInColon item.raw && !truthyO item.veiculo then
      some atv.2.2
    else item.veiculo)

set_option maxHeartbeats 1000000 in
/-- C4: the repair pass writes `titulo`/`veiculo`/`livro` only into falsy
fields, overwrites `autores` only under the author-list rule, and leaves
every other field unchanged. -/
theorem claim4_repair_frame : ∀ item : Item, repairFrame item := by
  intro item
  simp only [repairFrame, apply_citacao_fallbacks1, item_parece_capitulo]
  repeat' split
  all_goals simp_all

/-! ### C10: the year filter -/

theorem filterYearsGo_eq_filter (ys : List Nat) (items : List Item) :
    filterYearsGo ys items =
      items.filter (fun it =>
        match infer_year_from_item it with
        | some y => decide (y ∈ ys)
        | none => false) := by
  induction items with
  | nil => rfl
  | cons item rest ih =>
    simp only [filterYearsGo, List.filter]
    cases h : infer_year_from_item item with
    | none => simpa [h] using ih
    | some y =>
      by_cases hy : y ∈ ys
      · simp [h, hy, ih]
      · simp [h, hy, ih]

/-- C10: with `allowed_years=None` every item is kept unchanged and in
order; otherwise exactly the items whose inferred year (the `ano` field,
else the rightmost `(19|20)xx` token of `raw`) lies in the allowed set are
kept, items without an inferable year being dropped; the default allowed
years are 2024 and 2025. -/
theorem claim10_year_filter :
    (∀ items, filter_productions_by_year items none = items) ∧
    (∀ items ys, filter_productions_by_year items (some ys) =
      items.filter (fun it =>
        match infer_year_from_item it with
        | some y => decide (y ∈ ys)
        | none => false)) ∧
    DEFAULT_ALLOWED_YEARS = [2024, 2025] := by
  refine ⟨fun items => rfl, fun items ys => ?_, rfl⟩
  simpa [filter_productions_by_year] using filterYearsGo_eq_filter ys items

/-! ### C9: totality of `split_citacao` -/

/-- C9: `split_citacao` is a total function returning a triple of strings
(exceptions cannot arise in the embedding, matching the blanket
`try/except` of the source), and the empty string maps to three empty
strings. -/
theorem claim9_split_citacao_total :
    split_citacao [] = ([], [], []) ∧
    ∀ raw, ∃ a t v, split_citacao raw = (a, t, v) := by
  exact ⟨by decide, fun raw => ⟨_, _, _, rfl⟩⟩

/-! ### C3: the mojibake example is repaired twice, not once (code bug) -/

/-- The claim's input `"ParticipaÃƒÂ§ÃƒÂ£o"` at code-point level. -/
def c3Input : Str := ("Participa".toList) ++
  [Char.ofNat 195, Char.ofNat 402, Char.ofNat 194, Char.ofNat 167,
   Char.ofNat 195, Char.ofNat 402, Char.ofNat 194, Char.ofNat 163] ++ ("o".toList)

/-- The output the claim (and `test_encoding_normalization.py`) expect:
`"ParticipaÃ§Ã£o"`, one repair round. -/
def c3Claimed : Str := ("Participa".toList) ++
  [Char.ofNat 195, Char.ofNat 167, Char.ofNat 195, Char.ofNat 163] ++ ("o".toList)

/-- What the code computes: the fully repaired `"Participação"`. -/
def c3CodeOutput : Str := ("Participa".toList) ++
  [Char.ofNat 231, Char.ofNat 227] ++ ("o".toList)

/-- One iteration of the repair loop (check markers, accept an improving
candidate). -/
def mojibakeIter (t : Str) : Str :=
  if anyMarker t then
    match mojibakeCandidate t with
    | some c => c
    | none => t
  else t

/-- C3: at the claim's input the code performs a second repair round and
returns `"Participação"`, not the claimed `"ParticipaÃ§Ã£o"`; the loop is
exactly two applications of the accept-only-if-strictly-fewer-markers
iteration. -/
theorem claim3_normalize_text_mojibake :
    normalize_text c3Input = c3CodeOutput ∧
    c3CodeOutput ≠ c3Claimed ∧
    (∀ t c, mojibakeCandidate t = some c →
      countMojibakeMarkers c < countMojibakeMarkers t) ∧
    (∀ t, mojibakeLoop 2 t = mojibakeIter (mojibakeIter t)) := by
  refine ⟨by decide, by decide, ?_, ?_⟩
  · intro t c h
    simp only [mojibakeCandidate] at h
    split at h
    · exact absurd h (by simp)
    · split at h
      · exact absurd h (by simp)
      · rename_i hlt
        injection h with h'
        subst h'
        omega
  · intro t
    by_cases h1 : anyMarker t = true
    · cases hc : mojibakeCandidate t with
      | none => simp [mojibakeLoop, mojibakeIter, h1, hc]
      | some c => simp [mojibakeLoop, mojibakeIter, h1, hc]
    · simp only [Bool.not_eq_true] at h1
      simp [mojibakeLoop, mojibakeIter, h1]

/-- C3 witness: the first iteration at the claim's input accepts the
single-step candidate, which strictly reduces the marker count. -/
theorem claim3_witness :
    countMojibakeMarkers ((mojibakeCandidate c3Input).getD []) <
      countMojibakeMarkers c3Input :=
  claim3_normalize_text_mojibake.2.2.1 c3Input ((mojibakeCandidate c3Input).getD [])
    (by decide)

/-! ### C5: the chapter gate skips silently; `missing_structure` is never
recorded -/

def c5Bad : Str := ("In: something (Org.) no structure here".toList)

/-- C5 counterexample: both tokens present and the mandatory sub-pattern
absent, yet an item is still emitted (with the structured fields `None`)
and the error list stays empty — no `missing_structure` error exists in
`capitulos_v2.py`. -/
theorem claim5_counterexample :
    subOccurs litInColon (clean_text c5Bad) = true ∧
    subOccurs litOrgDot (clean_text c5Bad) = true ∧
    (CapituloParser.parse_block c5Bad 2 none []).isSome = true ∧
    ((CapituloParser.parse_block c5Bad 2 none []).getD default).livro = none ∧
    ((CapituloParser.parse_block c5Bad 2 none []).getD default).titulo = none ∧
    ((CapituloParser.parse_block c5Bad 2 none []).getD default).autores = none ∧
    (CapituloParser.parse_html [(c5Bad, 2, none, [])]).2 = [] := by
  decide

/-- C5 amended: a block yields an item exactly when its text contains both
`"In:"` and `"(Org.)"` (otherwise it is skipped silently), and the
parser's error list is always empty — no `missing_structure` error is ever
recorded. -/
theorem claim5_amended :
    (∀ s n d hs, (CapituloParser.parse_block s n d hs).isSome =
      (subOccurs litInColon (clean_text s) && subOccurs litOrgDot (clean_text s))) ∧
    (∀ blocks, (CapituloParser.parse_html blocks).2 = []) := by
  constructor
  · intro s n d hs
    simp only [CapituloParser.parse_block]
    split
    · rename_i hcond
      simp [hcond]
    · rename_i hcond
      simp only [Option.isSome_none]
      exact (Bool.not_eq_true _).mp (by simpa using hcond) |>.symm
  · intro blocks
    rfl

/-! ### C6: the author-block gate exists only in the newspaper parser -/

/-- C6 counterexample: `split_citacao` accepts `"hello world"` as the
author segment of a text with no `' . '` delimiter although it does not
look like an author block (no semicolon, no `SURNAME, I` pattern). -/
theorem claim6_counterexample :
    subOccurs litSpDotSp ("hello world. THE TITLE is here".toList) = false ∧
    (split_citacao ("hello world. THE TITLE is here".toList)).1 = ("hello world".toList) ∧
    TextoJornalParser.looks_like_author_block ("hello world".toList) = false := by
  decide

/-- C6 amended: in `TextoJornalParser._split_authors_and_remainder` an
author segment is produced only when the literal `' . '` delimiter occurs
or the prefix passes `_looks_like_author_block`; `split_citacao` itself
applies no such gate (see the counterexample). -/
theorem claim6_amended :
    ∀ raw a r, TextoJornalParser.split_authors_and_remainder raw = some (a, r) →
      subOccurs litSpDotSp raw = true ∨
        TextoJornalParser.looks_like_author_block a = true := by
  intro raw a r h
  simp only [TextoJornalParser.split_authors_and_remainder] at h
  split at h
  · rename_i hsub
    exact Or.inl hsub
  · split at h
    · rename_i g1 g2 heq
      split at h
      · rename_i hgate
        injection h with h'
        injection h' with ha hr
        exact Or.inr (ha ▸ hgate)
      · exact absurd h (by simp)
    · exact absurd h (by simp)

/-- C6 witness: the theorem at a concrete delimited citation. -/
theorem claim6_witness :
    subOccurs litSpDotSp ("AB; C . THE TITLE".toList) = true ∨
      TextoJornalParser.looks_like_author_block ("AB; C".toList) = true :=
  claim6_amended ("AB; C . THE TITLE".toList) ("AB; C".toList) ("THE TITLE".toList)
    (by decide)

/-! ### Character-preservation lemmas for the cleaning pipeline -/

theorem collapseWsAux_chars {s : Str} :
    ∀ {b : Bool} {c : Char}, c ∈ collapseWsAux b s → c ∈ s ∨ c = ' ' := by
  induction s with
  | nil => intro b c h; simp [collapseWsAux] at h
  | cons x rest ih =>
    intro b c h
    by_cases hx : pyIsSpace x = true
    · cases b with
      | true =>
        simp only [collapseWsAux, hx, if_true] at h
        rcases ih h with h' | h'
        · exact Or.inl (List.mem_cons_of_mem _ h')
        · exact Or.inr h'
      | false =>
        simp only [collapseWsAux, hx, if_true, if_false] at h
        rcases List.mem_cons.mp h with h' | h'
        · exact Or.inr h'
        · rcases ih h' with h'' | h''
          · exact Or.inl (List.mem_cons_of_mem _ h'')
          · exact Or.inr h''
    · simp only [collapseWsAux, hx, if_false, Bool.false_eq_true] at h
      rcases List.mem_cons.mp h with h' | h'
      · exact Or.inl (h' ▸ List.mem_cons_self _ _)
      · rcases ih h' with h'' | h''
        · exact Or.inl (List.mem_cons_of_mem _ h'')
        · exact Or.inr h''

theorem mem_of_mem_dropWhileP {p : Char → Bool} {s : Str} {c : Char}
    (h : c ∈ s.dropWhile p) : c ∈ s :=
  List.IsSuffix.mem h (List.dropWhile_suffix p)

theorem mem_of_mem_pyStrip {s : Str} {c : Char} (h : c ∈ pyStrip s) : c ∈ s := by
  simp only [pyStrip, pyRStrip, pyLStrip] at h
  rw [List.mem_reverse] at h
  have h1 := mem_of_mem_dropWhileP h
  rw [List.mem_reverse] at h1
  exact mem_of_mem_dropWhileP h1

theorem mem_of_mem_stripChars {cs s : Str} {c : Char} (h : c ∈ stripChars cs s) : c ∈ s := by
  simp only [stripChars, stripCharsR, stripCharsL] at h
  rw [List.mem_reverse] at h
  have h1 := mem_of_mem_dropWhileP h
  rw [List.mem_reverse] at h1
  exact mem_of_mem_dropWhileP h1

theorem clean_text_chars {s : Str} {c : Char} (h : c ∈ clean_text s) : c ∈ s ∨ c = ' ' := by
  simp only [clean_text, collapseWs] at h
  rcases collapseWsAux_chars (mem_of_mem_pyStrip h) with h' | h'
  · rcases List.mem_map.mp h' with ⟨x, hx, hfx⟩
    by_cases hx160 : x.toNat = 160
    · simp [hx160] at hfx; exact Or.inr hfx.symm
    · simp [hx160] at hfx; exact Or.inl (hfx ▸ hx)
  · exact Or.inr h'

/-- If a replacement engine's matcher never fires on dot-free text, the
substitution is the identity there. -/
theorem subAllGo_id_of_noDot
    (m : Option Char → Str → Option (Str × Nat × Option Char))
    (H : ∀ prev s, ('.' ∉ s) → m prev s = none) :
    ∀ (f : Nat) (prev : Option Char) (s : Str), ('.' ∉ s) → subAllGo m f prev s = s := by
  intro f
  induction f with
  | zero => intro prev s _; rfl
  | succ f ih =>
    intro prev s hs
    cases s with
    | nil => rfl
    | cons c rest =>
      have hrest : '.' ∉ rest := fun hm => hs (List.mem_cons_of_mem _ hm)
      simp only [subAllGo, H prev _ hs]
      rw [ih (some c) rest hrest]

theorem unglueMatch_none_of_noDot (prev : Option Char) (s : Str) (h : '.' ∉ s) :
    GenericParser.unglueMatch prev s = none := by
  cases s with
  | nil => rfl
  | cons c rest =>
    cases rest with
    | nil => rfl
    | cons c2 r2 =>
      have hc2 : c2 ≠ '.' := by
        intro e; exact h (by simp [e])
      simp only [GenericParser.unglueMatch]
      split
      · rename_i heq
        injection heq with _ heq2
        injection heq2 with h2 _
        exact absurd h2 hc2
      · rfl

theorem echoKeepYearMatch_none_of_noDot (prev : Option Char) (s : Str) (h : '.' ∉ s) :
    GenericParser.echoKeepYearMatch prev s = none := by
  simp only [GenericParser.echoKeepYearMatch, List.span_eq_take_drop]
  split
  · split
    · split
      · rename_i r1x r2x heq
        split
        · rename_i r3x ux r5x heq3
          exfalso
          apply h
          have hdot2 : ('.' : Char) ∈ r2x :=
            mem_of_mem_dropWhileP (p := pyIsSpace) (by rw [heq3]; simp)
          have hdot3 : ('.' : Char) ∈ List.dropWhile isUpperAZ s := by
            rw [heq]; exact List.mem_cons_of_mem _ hdot2
          exact mem_of_mem_dropWhileP hdot3
        · rfl
      · rfl
    · rfl
  · rfl

theorem gclean_text_noDot {s : Str} (h : '.' ∉ s) : '.' ∉ GenericParser.gclean_text s := by
  intro hmem
  simp only [GenericParser.gclean_text, collapseWs, subAll] at hmem
  have hmap : '.' ∉ s.map (fun c => if c.toNat = 160 then ' ' else c) := by
    intro hm
    rcases List.mem_map.mp hm with ⟨x, hx, hfx⟩
    by_cases hx160 : x.toNat = 160
    · simp [hx160] at hfx
    · simp [hx160] at hfx; exact h (hfx ▸ hx)
  have hcoll : '.' ∉ collapseWsAux false (s.map (fun c => if c.toNat = 160 then ' ' else c)) := by
    intro hm
    rcases collapseWsAux_chars hm with h' | h'
    · exact hmap h'
    · simp at h'
  rw [subAllGo_id_of_noDot _ unglueMatch_none_of_noDot _ _ _ hcoll] at hmem
  rw [subAllGo_id_of_noDot _ echoKeepYearMatch_none_of_noDot _ _ _ hcoll] at hmem
  exact hcoll (mem_of_mem_pyStrip hmem)

theorem startsL_subset {n s : Str} (h : startsL n s = true) : ∀ x ∈ n, x ∈ s := by
  induction n generalizing s with
  | nil => intro x hx; simp at hx
  | cons p ps ih =>
    cases s with
    | nil => simp [startsL] at h
    | cons c cs =>
      simp only [startsL, Bool.and_eq_true] at h
      intro x hx
      rcases List.mem_cons.mp hx with rfl | hx'
      · have := of_decide_eq_true h.1
        exact this ▸ List.mem_cons_self _ _
      · exact List.mem_cons_of_mem _ (ih h.2 x hx')

theorem subOccurs_subset {n s : Str} (h : subOccurs n s = true) : ∀ x ∈ n, x ∈ s := by
  induction s with
  | nil => simpa [subOccurs] using fun x hx => startsL_subset h x hx
  | cons c rest ih =>
    simp only [subOccurs, Bool.or_eq_true] at h
    rcases h with h | h
    · exact startsL_subset h
    · exact fun x hx => List.mem_cons_of_mem _ (ih h x hx)

/-! ### C2: the anti-leak invariant fails in general; Generic titles never
contain the delimiter -/

/-- Accent folding over the Latin-1 block (the NFD-decompose-and-drop-marks
step of the spec's normalization). -/
def accentFold (c : Char) : Char :=
  let n := c.toNat
  if 192 ≤ n && n ≤ 197 then 'A'
  else if n = 199 then 'C'
  else if 200 ≤ n && n ≤ 203 then 'E'
  else if 204 ≤ n && n ≤ 207 then 'I'
  else if n = 209 then 'N'
  else if (210 ≤ n && n ≤ 214) || n = 216 then 'O'
  else if 217 ≤ n && n ≤ 220 then 'U'
  else if n = 221 then 'Y'
  else if 224 ≤ n && n ≤ 229 then 'a'
  else if n = 231 then 'c'
  else if 232 ≤ n && n ≤ 235 then 'e'
  else if 236 ≤ n && n ≤ 239 then 'i'
  else if n = 241 then 'n'
  else if (242 ≤ n && n ≤ 246) || n = 248 then 'o'
  else if 249 ≤ n && n ≤ 252 then 'u'
  else if n = 253 || n = 255 then 'y'
  else c

/-- The claim's normalization: strip accents, collapse whitespace, strip,
lowercase. -/
def normTxt (s : Str) : Str := (pyStrip (collapseWs (s.map accentFold))).map Char.toLower

/-- The normalized surnames (text before the first comma of each
`'; '`-separated author) of an author string. -/
def surnamesOf (autores : Str) : List Str :=
  (splitOnSub litSemiSp autores).map (fun a => normTxt (a.takeWhile (fun c => c ≠ ',')))

/-- The anti-leak violation predicate of the claim: some normalized
surname of length ≥ 4 is a substring of the normalized title. -/
def surnameLeak (autores titulo : Str) : Bool :=
  (surnamesOf autores).any (fun sn => sn.length ≥ 4 && subOccurs sn (normTxt titulo))

def c2GenRaw : Str := ("SILVA, A.; SILVA, B . SILVA STUDIES OF THINGS. Venue, 2024.".toList)
def c2ArtRaw : Str := ("SILVA, A.; SOUZA, B . AB . CD, x EFGH. Venue, v. 3, p. 1-2".toList)

/-- C2 counterexample: a GenericParser item whose normalized titulo
contains the 5-character normalized surname `silva`, and an ArtigoParser
item whose titulo contains the structural delimiter `' . '`. -/
theorem claim2_counterexample :
    (GenericParser.parse_item c2GenRaw 1 none []).autores = some ("SILVA, A.; SILVA, B".toList) ∧
    (GenericParser.parse_item c2GenRaw 1 none []).titulo = some ("SILVA STUDIES OF THINGS".toList) ∧
    surnameLeak ("SILVA, A.; SILVA, B".toList) ("SILVA STUDIES OF THINGS".toList) = true ∧
    ((ArtigoParser.parse_from_span c2ArtRaw 1 none []).getD default).autores =
      some ("SILVA, A.; SOUZA, B".toList) ∧
    ((ArtigoParser.parse_from_span c2ArtRaw 1 none []).getD default).titulo =
      some ("AB . CD, x EFGH".toList) ∧
    subOccurs litSpDotSp ("AB . CD, x EFGH".toList) = true := by
  decide

set_option maxHeartbeats 1000000 in
/-- C2 amended: what survives of the anti-leak invariant: a GenericParser
titulo contains no period at all, hence never the `' . '` delimiter (the
surname half and the Artigo half fail, see the counterexample). -/
theorem claim2_amended :
    ∀ text autores t, GenericParser.extract_titulo_heuristic text autores = some t →
      ('.' ∉ t) ∧ subOccurs litSpDotSp t = false := by
  intro text autores t h
  simp only [GenericParser.extract_titulo_heuristic, List.span_eq_take_drop] at h
  split at h
  · rename_i after heqf
    split at h
    · split at h
      · injection h with h'
        subst h'
        have hrun : '.' ∉ List.takeWhile (fun c => decide (c ≠ '.')) after := by
          intro hm
          have := List.mem_takeWhile_imp hm
          simp at this
        have hnd := gclean_text_noDot hrun
        refine ⟨hnd, ?_⟩
        cases hocc : subOccurs litSpDotSp
            (GenericParser.gclean_text (List.takeWhile (fun c => decide (c ≠ '.')) after)) with
        | false => rfl
        | true =>
          exact absurd (subOccurs_subset hocc '.' (by simp [litSpDotSp])) hnd
      · exact absurd h (by simp)
    · exact absurd h (by simp)
  · exact absurd h (by simp)

/-- C2 witness: the amended theorem at a concrete extracted title. -/
theorem claim2_witness :
    ('.' ∉ ("SILVA STUDIES OF THINGS".toList)) ∧
      subOccurs litSpDotSp ("SILVA STUDIES OF THINGS".toList) = false :=
  claim2_amended c2GenRaw none ("SILVA STUDIES OF THINGS".toList) (by decide)

/-! ### C7: sparse blocks -/

def c7Sparse : Str := ("Sem ano aqui".toList)

/-- C7 counterexample: on a raw block with neither delimiter pattern, the
newspaper parser still emits an item, but its `titulo` is `None` — there
is no last-resort title fallback in `textos_jornais.py`. -/
theorem claim7_counterexample :
    TextoJornalParser.split_authors_and_remainder (clean_text c7Sparse) = none ∧
    (TextoJornalParser.parse_item c7Sparse 3 []).isSome = true ∧
    ((TextoJornalParser.parse_item c7Sparse 3 []).getD default).autores = none ∧
    ((TextoJornalParser.parse_item c7Sparse 3 []).getD default).titulo = none := by
  decide

set_option maxHeartbeats 2000000 in
/-- C7 amended: when no author/remainder split exists, the newspaper
parser emits an item with `autores`, `titulo`, `veiculo`, `local`,
`paginas` all `None` and records no error; `ArtigoParser`'s metadata
extraction, in contrast, always produces a (possibly empty) title via its
fallback chain. -/
theorem claim7_amended :
    (∀ s n hs it, TextoJornalParser.parse_item s n hs = some it →
      TextoJornalParser.split_authors_and_remainder (clean_text s) = none →
      it.autores = none ∧ it.titulo = none ∧ it.veiculo = none ∧
        it.local_ = none ∧ it.paginas = none) ∧
    (∀ blocks, (TextoJornalParser.parse_html blocks).2 = []) ∧
    (∀ texto autores, (ArtigoParser.extract_metadata texto autores).1.isSome = true) := by
  refine ⟨?_, fun blocks => rfl, ?_⟩
  · intro s n hs it h hsplit
    simp only [TextoJornalParser.parse_item, hsplit] at h
    split at h
    · exact absurd h (by simp)
    · injection h with h'
      subst h'
      exact ⟨rfl, rfl, rfl, rfl, rfl⟩
  · intro texto autores
    have hcore : (ArtigoParser.extract_metadata_core texto autores).1.isSome = true := by
      simp only [ArtigoParser.extract_metadata_core]
      repeat' split
      all_goals simp
    rcases hc : ArtigoParser.extract_metadata_core texto autores with ⟨t, v, vol, pg⟩
    rw [hc] at hcore
    simp only [ArtigoParser.extract_metadata, hc]
    cases v with
    | some v' => exact hcore
    | none => exact hcore

/-- C7 witness: the amended theorem at the sparse concrete input. -/
theorem claim7_witness :
    ((TextoJornalParser.parse_item c7Sparse 3 []).getD default).autores = none ∧
    ((TextoJornalParser.parse_item c7Sparse 3 []).getD default).titulo = none ∧
    ((TextoJornalParser.parse_item c7Sparse 3 []).getD default).veiculo = none ∧
    ((TextoJornalParser.parse_item c7Sparse 3 []).getD default).local_ = none ∧
    ((TextoJornalParser.parse_item c7Sparse 3 []).getD default).paginas = none :=
  claim7_amended.1 c7Sparse 3 []
    ((TextoJornalParser.parse_item c7Sparse 3 []).getD default) (by decide) (by decide)

/-! ### C8: the short-token filter exists in the parsers but not in the
repair pass -/

theorem splitChar_ne_nil (ch : Char) (s : Str) : splitChar ch s ≠ [] := by
  cases s with
  | nil => simp [splitChar]
  | cons c rest =>
    simp only [splitChar]
    split
    · simp
    · split <;> simp

theorem splitChar_not_mem (ch : Char) (s : Str) : ∀ p ∈ splitChar ch s, ch ∉ p := by
  induction s with
  | nil =>
    intro p hp
    simp only [splitChar, List.mem_singleton] at hp
    simp [hp]
  | cons c rest ih =>
    intro p hp
    simp only [splitChar] at hp
    split at hp
    · rcases List.mem_cons.mp hp with rfl | hp'
      · simp
      · exact ih p hp'
    · rename_i hne
      split at hp
      · rename_i t ts heq
        rcases List.mem_cons.mp hp with rfl | hp'
        · intro hm
          rcases List.mem_cons.mp hm with rfl | hm'
          · exact hne rfl
          · exact ih t (heq ▸ List.mem_cons_self t ts) hm'
        · exact ih p (heq ▸ List.mem_cons_of_mem t hp')
      · rename_i heq
        exact absurd heq (splitChar_ne_nil ch rest)

theorem clean_text_no_semi {p : Str} (hp : (';' : Char) ∉ p) : (';' : Char) ∉ clean_text p := by
  intro hm
  rcases clean_text_chars hm with h' | h'
  · exact hp h'
  · simp at h'

def c8RepairItem : Item :=
  { numero_item := 1, raw := ("AB; C . THE TITLE HERE. Venue, 2024.".toList) }

/-- C8 counterexample: the second-pass repair writes `"AB; C"` — whose
second `'; '`-separated token is the single character `"C"` — into an item
whose `autores` was empty: `split_citacao` applies no token-length
filter. -/
theorem claim8_counterexample :
    c8RepairItem.autores = none ∧
    (split_citacao c8RepairItem.raw).1 = ("AB; C".toList) ∧
    (apply_citacao_fallbacks1 c8RepairItem).autores = some ("AB; C".toList) ∧
    ("C".toList) ∈ splitOnSub litSemiSp ("AB; C".toList) ∧
    ("C".toList).length ≤ 2 := by
  decide

/-- C8 amended: the parser-level author extraction does discard cleaned
tokens of ≤ 2 characters before rejoining with `'; '` (ArtigoParser and
TextoJornalParser shown; Artigo then applies one further author cleanup to
the joined string), but the repair pass writes `split_citacao`'s unfiltered
value (see the counterexample). -/
theorem claim8_amended :
    (∀ texto out, ArtigoParser.extract_autores texto = some out →
      ∃ toks, toks ≠ [] ∧ (∀ t ∈ toks, 2 < t.length) ∧
        out = clean_autores (List.intercalate litSemiSp toks)) ∧
    (∀ a out, TextoJornalParser.normalize_autores a = some out →
      ∃ toks, toks ≠ [] ∧ (∀ t ∈ toks, 2 < t.length ∧ (';' : Char) ∉ t) ∧
        out = List.intercalate litSemiSp toks) := by
  constructor
  · intro texto out h
    simp only [ArtigoParser.extract_autores] at h
    split at h
    · exact absurd h (by simp)
    · rename_i g heq
      split at h
      · exact absurd h (by simp)
      · rename_i htoks
        split at h
        · exact absurd h (by simp)
        · injection h with h'
          refine ⟨_, htoks, ?_, h'.symm⟩
          intro t ht
          have := (List.mem_filter.mp ht).2
          exact of_decide_eq_true this
  · intro a out h
    simp only [TextoJornalParser.normalize_autores] at h
    split at h
    · exact absurd h (by simp)
    · split at h
      · exact absurd h (by simp)
      · rename_i htoks
        injection h with h'
        refine ⟨_, htoks, ?_, h'.symm⟩
        intro t ht
        obtain ⟨hmem, hlen⟩ := List.mem_filter.mp ht
        refine ⟨of_decide_eq_true hlen, ?_⟩
        rcases List.mem_map.mp hmem with ⟨p, hp, rfl⟩
        exact clean_text_no_semi (splitChar_not_mem ';' a p hp)

/-- C8 witness: the amended theorem at a concrete author string. -/
theorem claim8_witness :
    ∃ toks, toks ≠ [] ∧ (∀ t ∈ toks, 2 < t.length ∧ (';' : Char) ∉ t) ∧
      ("SILVA, A.; SOUZA, B.".toList) = List.intercalate litSemiSp toks :=
  claim8_amended.2 ("SILVA, A.; SOUZA, B.".toList) ("SILVA, A.; SOUZA, B.".toList) (by decide)

end Metricas
